import Mathlib

set_option autoImplicit false

/-!
Verification development for the Angler's Pulse forecast engine.

The TypeScript sources are shallowly embedded below:
* JavaScript numbers are modelled as real numbers (`ℝ`) where the code uses
  transcendental functions, and as rationals (`ℚ`) / integers (`ℤ`) where the
  code only performs field arithmetic, so that the embedding stays executable.
* `Math.round` is round-half-up (`⌊x + 1/2⌋`), `Math.floor` is `⌊·⌋`.
* "HH:MM" wall-clock strings are modelled by their minute count (the
  formatting used by the code, floor-hour and floor-minute extraction, is an
  order isomorphism onto minute counts in `[0, 1440)`).
* calendar-date keys ("YYYY-MM-DD") are modelled by integer day indices,
  which is faithful because the code only ever walks consecutive dates in
  ascending order and compares keys for equality.
* stateful code (the `localStorage` weather cache) is modelled by explicit
  state passing; network fetches are modelled by passing the assembled fetch
  result (possibly empty, when every segment fails) as a parameter.
-/

namespace AnglersPulse

open Real

/-- JavaScript `Math.round` on rationals: round half up. -/
def jsRound (q : ℚ) : ℤ := ⌊q + 1/2⌋

/-- JavaScript `Math.round` on reals: round half up. -/
noncomputable def jsRoundR (x : ℝ) : ℤ := ⌊x + 1/2⌋

/-- `circularDiffMinutes` from `solunarService.ts`: distance between two
minute-of-day values, wrapping at 1440. -/
def circularDiffMinutes (aMin bMin : ℤ) : ℤ :=
  min |aMin - bMin| (1440 - |aMin - bMin|)

/-- The inclusive integer range `[a, b]` as a list, ascending. -/
def rangeList (a b : ℤ) : List ℤ :=
  (List.range (b + 1 - a).toNat).map (fun (i : ℕ) => a + (i : ℤ))

/-- Point update of a partial map, modelling `map[k] = v`. -/
def update {α : Type} (m : ℤ → Option α) (k : ℤ) (v : α) : ℤ → Option α :=
  fun j => if j = k then some v else m j

/-- `WeatherInfo` from `types.ts`.  All numeric fields produced by the
aggregator are integers (`Math.round`/defaults), so they are modelled as `ℤ`. -/
structure WeatherInfo where
  tempHigh : ℤ
  tempLow : ℤ
  pressure : ℤ
  pressureTrend : String
  windSpeed : ℤ
  windDirection : String
  conditions : String
deriving DecidableEq

/-- The fixed fallback weather record used by `fillMissingDays` when no
preceding value exists. -/
def defaultWeather : WeatherInfo :=
  { tempHigh := 20, tempLow := 12, pressure := 1013, pressureTrend := "steady"
    windSpeed := 5, windDirection := "NW", conditions := "Clear" }

/-- The pressure-trend classification inlined in `fetchAndAggregateDaily`
(threshold `PRESSURE_TREND_EPS = 1.0`, strict comparisons). -/
def pressureTrendOf (prevPressure pressure : ℚ) : String :=
  if pressure - prevPressure > 1 then "rising"
  else if pressure - prevPressure < -1 then "falling"
  else "steady"

namespace SolunarService

/-- `getMoonPhaseName` from `solunarService.ts` (the same code appears in the
offline variant): an 8-way classification of the phase value. -/
noncomputable def getMoonPhaseName (phase : ℝ) : String :=
  if phase < 0.03 ∨ phase > 0.97 then "New Moon"
  else if phase < 0.22 then "Waxing Crescent"
  else if phase < 0.28 then "First Quarter"
  else if phase < 0.47 then "Waxing Gibbous"
  else if phase < 0.53 then "Full Moon"
  else if phase < 0.72 then "Waning Gibbous"
  else if phase < 0.78 then "Last Quarter"
  else "Waning Crescent"

/-- Modelled from the spec: the documented 8-bucket table with explicit
lower-inclusive/upper-exclusive interval boundaries (Waning Crescent closed at
`0.97`, New Moon open above `0.97`). -/
noncomputable def moonBucketTable (p : ℝ) : String :=
  if p < 0.03 ∨ (0.97 < p ∧ p < 1) then "New Moon"
  else if 0.03 ≤ p ∧ p < 0.22 then "Waxing Crescent"
  else if 0.22 ≤ p ∧ p < 0.28 then "First Quarter"
  else if 0.28 ≤ p ∧ p < 0.47 then "Waxing Gibbous"
  else if 0.47 ≤ p ∧ p < 0.53 then "Full Moon"
  else if 0.53 ≤ p ∧ p < 0.72 then "Waning Gibbous"
  else if 0.72 ≤ p ∧ p < 0.78 then "Last Quarter"
  else "Waning Crescent"

/-- One (major or minor) peak's number of anchors (sunrise/sunset) matched
within the 90-minute circular window. -/
def anchorsMatched (sunriseMin sunsetMin m : ℤ) : ℕ :=
  (if circularDiffMinutes m sunriseMin ≤ 90 then 1 else 0) +
  (if circularDiffMinutes m sunsetMin ≤ 90 then 1 else 0)

/-- Number of qualifying (peak, anchor) matches over a list of peaks. -/
def alignedMatches (sunriseMin sunsetMin : ℤ) (peaks : List ℤ) : ℕ :=
  (peaks.map (anchorsMatched sunriseMin sunsetMin)).sum

/-- `computeAlignmentBonus` from `solunarService.ts`: 10 per matched
(major peak, anchor) pair, 5 per matched (minor peak, anchor) pair, capped at
`ALIGNMENT_BONUS_CAP = 20`.  Times are minute counts of the parsed "HH:MM"
strings. -/
def computeAlignmentBonus (sunriseMin sunsetMin : ℤ)
    (majors minors : List ℤ) : ℕ :=
  min 20
    ((majors.map (fun m =>
        (if circularDiffMinutes m sunriseMin ≤ 90 then 10 else 0) +
        (if circularDiffMinutes m sunsetMin ≤ 90 then 10 else 0))).sum +
     (minors.map (fun m =>
        (if circularDiffMinutes m sunriseMin ≤ 90 then 5 else 0) +
        (if circularDiffMinutes m sunsetMin ≤ 90 then 5 else 0))).sum)

/-- Inline base-score computation of `calculateFishingForecast` in
`solunarService.ts` (the simplified variant): `50 + phaseImpact*40`, plus a
flat `+5` when the phase is within `0.05` of new moon or full moon. -/
noncomputable def baseScoreOf (p : ℝ) : ℝ :=
  (50 + (Real.cos (p * Real.pi * 4) + 1) / 2 * 40) +
  (if p < 0.05 ∨ p > 0.95 ∨ (p > 0.45 ∧ p < 0.55) then 5 else 0)

/-- Daily score of the simplified variant:
`Math.min(100, Math.floor(baseScore + alignmentBonus))`. -/
noncomputable def dayScore (p : ℝ) (sr ss : ℤ) (majors minors : List ℤ) : ℤ :=
  min 100 ⌊baseScoreOf p + (computeAlignmentBonus sr ss majors minors : ℝ)⌋

end SolunarService

namespace OfflineSolunar

/-- `isAligned` from the offline (ephemeris-based) solunar service: true when
the peak exists (is not the "—" placeholder, parsed as `-1`) and is within 90
circular minutes of sunrise or sunset. -/
def isAligned (peak sunriseMin sunsetMin : ℤ) : Prop :=
  peak ≠ -1 ∧ (circularDiffMinutes peak sunriseMin ≤ 90 ∨
               circularDiffMinutes peak sunsetMin ≤ 90)

instance (peak sr ss : ℤ) : Decidable (isAligned peak sr ss) := by
  unfold isAligned; infer_instance

/-- `computeAlignmentBonus` from the offline solunar service (same as the
simplified one but skipping "—" placeholder peaks parsed as `-1`). -/
def computeAlignmentBonus (sunriseMin sunsetMin : ℤ)
    (majors minors : List ℤ) : ℕ :=
  min 20
    ((majors.map (fun m => if m = -1 then 0 else
        (if circularDiffMinutes m sunriseMin ≤ 90 then 10 else 0) +
        (if circularDiffMinutes m sunsetMin ≤ 90 then 10 else 0))).sum +
     (minors.map (fun m => if m = -1 then 0 else
        (if circularDiffMinutes m sunriseMin ≤ 90 then 5 else 0) +
        (if circularDiffMinutes m sunsetMin ≤ 90 then 5 else 0))).sum)

/-- `computeBasePhaseScore` from the offline (canonical) solunar service:
`50 + phaseImpact*40`, plus a flat `+5` when `p < 0.03`, `p > 0.97`, or
`0.47 < p < 0.53`. -/
noncomputable def computeBasePhaseScore (p : ℝ) : ℝ :=
  (50 + (Real.cos (p * Real.pi * 4) + 1) / 2 * 40) +
  (if p < 0.03 ∨ p > 0.97 ∨ (p > 0.47 ∧ p < 0.53) then 5 else 0)

/-- `Math.min(100, Math.floor(baseScore + alignmentBonus))` from the offline
solunar service. -/
noncomputable def finalScoreOf (base : ℝ) (bonus : ℕ) : ℤ :=
  min 100 ⌊base + (bonus : ℝ)⌋

/-- Daily score of the offline (canonical) variant. -/
noncomputable def dayScore (p : ℝ) (sr ss : ℤ) (majors minors : List ℤ) : ℤ :=
  finalScoreOf (computeBasePhaseScore p) (computeAlignmentBonus sr ss majors minors)

/-- Raw hourly score of the offline solunar service at hour `hIdx`: floor 20,
crepuscular half-cosine bumps near sunrise/sunset, squared-cosine major and
minor peak bumps with alignment-boosted amplitude ("—" placeholder peaks
parsed as `-1` are skipped). -/
noncomputable def hourScoreRaw (sr ss : ℤ) (majors minors : List ℤ)
    (hIdx : ℕ) : ℝ :=
  let hMin : ℤ := hIdx * 60
  20 +
  (([sr, ss].map (fun anchor =>
      let diff := circularDiffMinutes hMin anchor
      if diff < 90 then Real.cos ((diff : ℝ) / 90 * (Real.pi / 2)) * 25
      else 0)).sum) +
  ((majors.map (fun t =>
      if t = -1 then 0 else
      let diff := circularDiffMinutes hMin t
      let amp : ℝ := if isAligned t sr ss then 50 + 35 else 50
      if diff < 120 then (Real.cos ((diff : ℝ) / 120 * (Real.pi / 2)))^2 * amp
      else 0)).sum) +
  ((minors.map (fun t =>
      if t = -1 then 0 else
      let diff := circularDiffMinutes hMin t
      let amp : ℝ := if isAligned t sr ss then 25 + 20 else 25
      if diff < 75 then (Real.cos ((diff : ℝ) / 75 * (Real.pi / 2)))^2 * amp
      else 0)).sum)

/-- The 24-element hourly activity list before normalization: each hour's raw
score floored and clamped into `[10, 100]`. -/
noncomputable def hourlyActivityRaw (sr ss : ℤ) (majors minors : List ℤ) :
    List ℤ :=
  (List.range 24).map
    (fun h => min 100 (max 10 ⌊hourScoreRaw sr ss majors minors h⌋))

/-- `Math.max(...list)` for the (always nonempty) hourly activity list. -/
def maxHour : List ℤ → ℤ
  | [] => 0
  | x :: xs => xs.foldl max x

/-- The normalization step of the offline solunar service: rescale the curve
toward 100 when the score is at least 85 and the peak is below 95 (reclamped
to 100), and toward 85 when the score is at least 70 and the peak is below
80. -/
def normalizeHourly (finalScore : ℤ) (l : List ℤ) : List ℤ :=
  if 85 ≤ finalScore ∧ maxHour l < 95 then
    l.map (fun (v : ℤ) => min 100 ⌊(v : ℚ) * (100 / ((maxHour l : ℤ) : ℚ))⌋)
  else if 70 ≤ finalScore ∧ maxHour l < 80 then
    l.map (fun (v : ℤ) => ⌊(v : ℚ) * (85 / ((maxHour l : ℤ) : ℚ))⌋)
  else l

/-- The hourly activity list actually stored in a `FishingDay` by the offline
solunar service: raw clamped curve, then normalization against the day's
final score. -/
noncomputable def dayHourlyActivity (p : ℝ) (sr ss : ℤ)
    (majors minors : List ℤ) : List ℤ :=
  normalizeHourly (dayScore p sr ss majors minors)
    (hourlyActivityRaw sr ss majors minors)

end OfflineSolunar

/-- Number of days in a Gregorian calendar month, modelling
`new Date(year, month, 0).getDate()` for `month` in 1..12. -/
def daysInMonth (year month : ℤ) : ℕ :=
  if month = 1 ∨ month = 3 ∨ month = 5 ∨ month = 7 ∨ month = 8 ∨
     month = 10 ∨ month = 12 then 31
  else if month = 2 then
    (if (year % 4 = 0 ∧ year % 100 ≠ 0) ∨ year % 400 = 0 then 29 else 28)
  else 30

/-- Days since the Unix epoch of a proleptic Gregorian civil date, modelling
the integral part of `new Date(y, m-1, d).getTime() / 86400000` (time zone
abstracted away; the engine only ever takes differences of such values). -/
def daysFromCivil (y m d : ℤ) : ℤ :=
  let yAdj := if m ≤ 2 then y - 1 else y
  let era := Int.fdiv yAdj 400
  let yoe := yAdj - era * 400
  let doy := Int.fdiv (153 * (m + (if m > 2 then -3 else 9)) + 2) 5 + d - 1
  let doe := yoe * 365 + Int.fdiv yoe 4 - Int.fdiv yoe 100 + doy
  era * 146097 + doe - 719468

/-- Epoch milliseconds of the reference new moon
`Date("2024-12-30T22:27:00Z")`. -/
def NEW_MOON_REF : ℤ := daysFromCivil 2024 12 30 * 86400000 + 80820000

/-- JavaScript truncation toward zero. -/
noncomputable def jsTrunc (x : ℝ) : ℤ := if 0 ≤ x then ⌊x⌋ else -⌊-x⌋

/-- JavaScript `x % m` (sign of the dividend, truncated division). -/
noncomputable def jsFmod (x m : ℝ) : ℝ := x - m * (jsTrunc (x / m) : ℝ)

/-- The "HH:MM" formatting of `solunarService.ts` composed with
`parseHHMMToMinutes`: normalize the hour value by `(h + 24) % 24`, then take
floor hours and floor minutes.  The result is the minute count the string
stands for. -/
noncomputable def timeToMinutes (h : ℝ) : ℤ :=
  let x := jsFmod (h + 24) 24
  ⌊x⌋ * 60 + ⌊(x - (⌊x⌋ : ℝ)) * 60⌋

/-- `FishingDay` from `types.ts`; "HH:MM" strings are modelled by minute
counts. -/
structure FishingDay where
  day : ℤ
  score : ℤ
  moonPhase : String
  moonPhaseValue : ℝ
  bestTimes : List ℤ
  hourlyActivity : List ℤ
  events : List (String × ℤ)
  weather : WeatherInfo

/-- `MonthlyForecast` from `types.ts`. -/
structure MonthlyForecast where
  month : ℤ
  year : ℤ
  days : List FishingDay

namespace WeatherService

/-- `fillMissingDays` from the weather cache service: walk the requested day
range in order; a present day becomes the new "last seen" value, a missing
day is filled with the last seen value, or with `defaultWeather` when nothing
has been seen yet (filled-in days do not update the "last seen" value, exactly
as in the source, where only originally-present entries are re-read). -/
def fillMissingDays :
    (ℤ → Option WeatherInfo) → Option WeatherInfo → List ℤ →
      (ℤ → Option WeatherInfo)
  | m, _, [] => m
  | m, last, k :: rest =>
    match m k, last with
    | some v, _ => fillMissingDays m (some v) rest
    | none, some v => fillMissingDays (update m k v) (some v) rest
    | none, none => fillMissingDays (update m k defaultWeather) none rest

/-- The most recent value present in `m` along the day list `l` (scanned in
ascending order), with fallback `acc`. -/
def lastKnown (m : ℤ → Option WeatherInfo) :
    List ℤ → Option WeatherInfo → Option WeatherInfo
  | [], acc => acc
  | j :: rest, acc =>
    lastKnown m rest (match m j with | some v => some v | none => acc)

/-- The most recent preceding value: last value of `m` present on the days
`a, a+1, …, k-1`, if any. -/
def mostRecentBefore (m : ℤ → Option WeatherInfo) (a k : ℤ) :
    Option WeatherInfo :=
  lastKnown m (rangeList a (k - 1)) none

/-- `fetchMonthlyWeather` from the weather cache service, for a month of `n`
days (day keys 1..n): slice the cached rolling window to the requested month,
then gap-fill the month range. -/
def fetchMonthlyWeather (n : ℕ) (cache : ℤ → Option WeatherInfo) :
    ℤ → Option WeatherInfo :=
  fillMissingDays
    (fun k => if 1 ≤ k ∧ k ≤ (n : ℤ) then cache k else none)
    none (rangeList 1 (n : ℤ))

/-- One hourly record of an Open-Meteo response, after bucketing by calendar
date: each field is present iff the corresponding parallel array holds a
finite number at this index (`isFiniteNum` filtering). -/
structure HourlySample where
  temp : Option ℚ
  pressure : Option ℚ
  windSpeed : Option ℚ
  windDir : Option ℚ
  code : Option ℤ

/-- Arithmetic mean (`mean` from the weather service). -/
def mean (l : List ℚ) : ℚ := l.sum / l.length

/-- `Math.max(...)` over a nonempty list (the `-Infinity` seed of the source
is modelled by the nonempty pattern; all call sites guard nonemptiness). -/
def maxQ : List ℚ → ℚ
  | [] => 0
  | x :: xs => xs.foldl max x

/-- `Math.min(...)` over a nonempty list. -/
def minQ : List ℚ → ℚ
  | [] => 0
  | x :: xs => xs.foldl min x

/-- `codesToCondition` from the weather service: highest-priority weather
category present among the day's codes (the code groups are pairwise
disjoint, so the source's else-if flag loop equals independent membership
scans). -/
def codesToCondition (codes : List ℤ) : String :=
  let hasStorm := codes.any (fun c => decide (c ∈ ([95, 96, 99] : List ℤ)))
  let hasSnow := codes.any (fun c => decide (c ∈ ([71, 73, 75, 77, 85, 86] : List ℤ)))
  let hasRain := codes.any (fun c =>
    decide (c ∈ ([51, 53, 55, 56, 57, 61, 63, 65, 66, 67, 80, 81, 82] : List ℤ)))
  let hasFog := codes.any (fun c => decide (c ∈ ([45, 48] : List ℤ)))
  let hasCloud := codes.any (fun c => decide (c ∈ ([1, 2, 3] : List ℤ)))
  if hasStorm then "Stormy"
  else if hasSnow then "Snowy"
  else if hasRain then "Rainy"
  else if hasFog then "Foggy"
  else if hasCloud then "Cloudy"
  else "Clear"

/-- JavaScript `Math.atan2`. -/
noncomputable def jsAtan2 (y x : ℝ) : ℝ := Complex.arg ⟨x, y⟩

/-- `vectorMeanDegrees` from the weather service: angle of the sum of unit
vectors, normalized to `[0, 360)`. -/
noncomputable def vectorMeanDegrees (degs : List ℝ) : ℝ :=
  let x := (degs.map (fun d => Real.cos (d * Real.pi / 180))).sum
  let y := (degs.map (fun d => Real.sin (d * Real.pi / 180))).sum
  jsFmod (jsAtan2 y x * (180 / Real.pi) + 360) 360

/-- `degreesToCardinal` from the weather service. -/
noncomputable def degreesToCardinal (deg : ℝ) : String :=
  (["N", "NE", "E", "SE", "S", "SW", "W", "NW"] : List String).getD
    ((jsRoundR (deg / 45)).toNat % 8) "N"

/-- Aggregation of one day's hourly samples into a `WeatherInfo`, given the
running previous-day pressure of the current segment.  Mirrors the per-day
body of `fetchAndAggregateDaily`. -/
noncomputable def aggregateDay (samples : List HourlySample)
    (prevPressure : Option ℤ) : WeatherInfo :=
  let temps := samples.filterMap (fun s => s.temp)
  let pressures := samples.filterMap (fun s => s.pressure)
  let winds := samples.filterMap (fun s => s.windSpeed)
  let dirs := samples.filterMap (fun s => s.windDir)
  let codes := samples.filterMap (fun s => s.code)
  let pressure := if pressures.isEmpty then prevPressure.getD 1013
                  else jsRound (mean pressures)
  { tempHigh := if temps.isEmpty then 0 else jsRound (maxQ temps)
    tempLow := if temps.isEmpty then 0 else jsRound (minQ temps)
    pressure := pressure
    pressureTrend := match prevPressure with
      | none => "steady"
      | some pp => pressureTrendOf (pp : ℚ) (pressure : ℚ)
    windSpeed := if winds.isEmpty then 0 else jsRound (mean winds)
    windDirection := if dirs.isEmpty then "N"
      else degreesToCardinal (vectorMeanDegrees (dirs.map (fun (q : ℚ) => (q : ℝ))))
    conditions := if codes.isEmpty then "Clear" else codesToCondition codes }

/-- The day loop of `fetchAndAggregateDaily`: walk the segment's day range in
chronological order, skip days without data, and thread the previous-day
pressure `prevPressure` (which starts at `null` for every segment — it is a
local of each `fetchAndAggregateDaily` call). -/
noncomputable def fetchAndAggregateDaily (buckets : ℤ → List HourlySample) :
    List ℤ → Option ℤ → (ℤ → Option WeatherInfo)
  | [], _ => fun _ => none
  | k :: rest, prev =>
    if (buckets k).isEmpty then fetchAndAggregateDaily buckets rest prev
    else
      let wi := aggregateDay (buckets k) prev
      update (fetchAndAggregateDaily buckets rest (some wi.pressure)) k wi

/-- One segment fetch: aggregate the bucketed hourly data over the segment's
inclusive day range, starting with no previous-day pressure. -/
noncomputable def aggregateSegment (buckets : ℤ → List HourlySample)
    (start endd : ℤ) : ℤ → Option WeatherInfo :=
  fetchAndAggregateDaily buckets (rangeList start endd) none

/-- Concrete archive-segment input: one day (index 0) whose hourly data holds
only a pressure reading of 1010 hPa. -/
def segBucketsA : ℤ → List HourlySample := fun k =>
  if k = 0 then
    [{ temp := none, pressure := some 1010, windSpeed := none,
       windDir := none, code := none }]
  else []

/-- Concrete forecast-segment input: one day (index 1) whose hourly data holds
only a pressure reading of 1020 hPa. -/
def segBucketsB : ℤ → List HourlySample := fun k =>
  if k = 1 then
    [{ temp := none, pressure := some 1020, windSpeed := none,
       windDir := none, code := none }]
  else []

/-- Concrete one-segment input with two data days: day 0 with pressure
1010 hPa and day 1 with pressure 1020 hPa. -/
def segBucketsAB : ℤ → List HourlySample := fun k =>
  if k = 0 then
    [{ temp := none, pressure := some 1010, windSpeed := none,
       windDir := none, code := none }]
  else if k = 1 then
    [{ temp := none, pressure := some 1020, windSpeed := none,
       windDir := none, code := none }]
  else []

/-- `getDailyCacheKey`: the location rounded to two decimals
(`toFixed(2)` string key equality is equivalence of the rounded pairs). -/
noncomputable def cacheKey (lat lon : ℝ) : ℤ × ℤ :=
  (jsRoundR (lat * 100), jsRoundR (lon * 100))

/-- Calendar-day index of an epoch-milliseconds timestamp (models the
year/month/day triple that `isCacheValidForToday` compares). -/
def dayIndex (t : ℤ) : ℤ := Int.fdiv t 86400000

/-- `isCacheValidForToday` from the weather service: the entry was fetched on
the same calendar day as `now`. -/
def isCacheValidForToday (fetchedAt now : ℤ) : Prop :=
  dayIndex fetchedAt = dayIndex now

instance (fetchedAt now : ℤ) : Decidable (isCacheValidForToday fetchedAt now) := by
  unfold isCacheValidForToday; infer_instance

/-- `WeatherCacheEntry` from the weather service. -/
structure WeatherCacheEntry where
  fetchedAt : ℤ
  rangeStart : ℤ
  rangeEnd : ℤ
  data : ℤ → Option WeatherInfo

/-- The miss path of `fetchDailyWeatherCache`: purge entries of other
locations, assemble the rolling window `[today-7, today+60]` from whatever
segment fetches succeeded (`assembled`; empty when all fail), gap-fill it,
persist it under the location's key with `fetchedAt = now`, and report that a
fetch was issued. -/
def fetchFresh (store : ℤ × ℤ → Option WeatherCacheEntry) (now : ℤ)
    (key : ℤ × ℤ) (assembled : ℤ → Option WeatherInfo) :
    (ℤ → Option WeatherInfo) × (ℤ × ℤ → Option WeatherCacheEntry) × Bool :=
  let today := dayIndex now
  let out := fillMissingDays assembled none (rangeList (today - 7) (today + 60))
  let entry : WeatherCacheEntry :=
    { fetchedAt := now, rangeStart := today - 7, rangeEnd := today + 60, data := out }
  (out, fun k => if k = key then some entry else none, true)

/-- `fetchDailyWeatherCache` from the weather service, with the persisted
store and the clock passed explicitly: return the cached data when the stored
entry was fetched today, otherwise run the full fetch path.  The `Bool`
reports whether an underlying (segmented) fetch was issued. -/
noncomputable def fetchDailyWeatherCache
    (store : ℤ × ℤ → Option WeatherCacheEntry) (now : ℤ) (lat lon : ℝ)
    (assembled : ℤ → Option WeatherInfo) :
    (ℤ → Option WeatherInfo) × (ℤ × ℤ → Option WeatherCacheEntry) × Bool :=
  match store (cacheKey lat lon) with
  | some e =>
    if isCacheValidForToday e.fetchedAt now then (e.data, store, false)
    else fetchFresh store now (cacheKey lat lon) assembled
  | none => fetchFresh store now (cacheKey lat lon) assembled

end WeatherService

namespace SolunarService

/-- `getMoonPhaseValue` from `solunarService.ts` at the local midnight of a
civil date: fractional position in the synodic cycle since the reference new
moon, wrapped into `[0, 1)`. -/
noncomputable def getMoonPhaseValue (y m d : ℤ) : ℝ :=
  let diff : ℝ := ((daysFromCivil y m d * 86400000 - NEW_MOON_REF : ℤ) : ℝ)
  let phase := jsFmod (diff / (1000 * 60 * 60 * 24 * 29.530588853)) 1
  if phase < 0 then phase + 1 else phase

/-- Day-of-year as computed by `getSolarTimes`
(`floor((date − Date(year,0,0)) / 86400000)`). -/
def dayOfYear (y m d : ℤ) : ℤ :=
  daysFromCivil y m d - daysFromCivil (y - 1) 12 31

/-- Solar declination approximation `0.409·sin(2π(dayOfYear−81)/365)`. -/
noncomputable def solarDecl (doy : ℤ) : ℝ :=
  0.409 * Real.sin (2 * Real.pi * ((doy : ℝ) - 81) / 365)

/-- Hour angle `acos(clamp(−tan φ · tan δ, −1, 1)) · 12/π` (hours of
half-daylight). -/
noncomputable def hourAngleOf (lat : ℝ) (doy : ℤ) : ℝ :=
  Real.arccos (max (-1) (min 1
      (-(Real.tan (lat * Real.pi / 180)) * Real.tan (solarDecl doy))))
    * (12 / Real.pi)

/-- Longitude-to-nearest-timezone-slot correction
`(round(lon/15)·15 − lon) · 12/180`. -/
noncomputable def lonCorrection (lon : ℝ) : ℝ :=
  ((jsRoundR (lon / 15) : ℝ) * 15 - lon) * (12 / 180)

/-- `solarNoon = 12 + lonCorrection`. -/
noncomputable def solarNoonOf (lon : ℝ) : ℝ := 12 + lonCorrection lon

/-- Raw sunrise hour value `solarNoon − H` (before "HH:MM" formatting). -/
noncomputable def sunriseHour (doy : ℤ) (lat lon : ℝ) : ℝ :=
  solarNoonOf lon - hourAngleOf lat doy

/-- Raw sunset hour value `solarNoon + H` (before "HH:MM" formatting). -/
noncomputable def sunsetHour (doy : ℤ) (lat lon : ℝ) : ℝ :=
  solarNoonOf lon + hourAngleOf lat doy

/-- Sorting of the two formatted peak strings ("HH:MM" lexicographic order
equals minute order for fixed-width strings). -/
def sortPair (a b : ℤ) : List ℤ := if a ≤ b then [a, b] else [b, a]

/-- Result of `getSolunarPeaks`: formatted major/minor peak times and the
moonrise/moonset approximations, as minute counts. -/
structure SolunarPeaks where
  major : List ℤ
  minor : List ℤ
  rise : ℤ
  setTime : ℤ

/-- `getSolunarPeaks` from `solunarService.ts`: moon transit approximated as
`(solarNoon + phase·24) mod 24`; majors half a lunar day apart, minors a
quarter lunar day to each side; moonrise/moonset are the minor pair. -/
noncomputable def getSolunarPeaks (phase solarNoon : ℝ) : SolunarPeaks :=
  let moonTransit := jsFmod (solarNoon + phase * 24) 24
  let major1 := moonTransit
  let major2 := jsFmod (moonTransit + 12.42) 24
  let minor1 := jsFmod (moonTransit - 6.21 + 24) 24
  let minor2 := jsFmod (moonTransit + 6.21) 24
  { major := sortPair (timeToMinutes major1) (timeToMinutes major2)
    minor := sortPair (timeToMinutes minor1) (timeToMinutes minor2)
    rise := timeToMinutes minor1
    setTime := timeToMinutes minor2 }

/-- `isAligned` from `solunarService.ts`: within 90 circular minutes of
sunrise or sunset. -/
def isAligned (peak sunriseMin sunsetMin : ℤ) : Prop :=
  circularDiffMinutes peak sunriseMin ≤ 90 ∨
  circularDiffMinutes peak sunsetMin ≤ 90

instance (peak sr ss : ℤ) : Decidable (isAligned peak sr ss) := by
  unfold isAligned; infer_instance

/-- Raw hourly score of the simplified solunar service at hour `hIdx`:
floor 18, linear-falloff crepuscular bumps (±120 min, up to 20), major-peak
bumps (±90 min, amplitude 40, +30 if aligned) and minor-peak bumps (±60 min,
amplitude 18, +15 if aligned).  All arithmetic is exact rational. -/
def hourScoreSimple (sr ss : ℤ) (majors minors : List ℤ) (hIdx : ℕ) : ℚ :=
  let hMin : ℤ := hIdx * 60
  18 +
  (([sr, ss].map (fun anchor =>
      let diff := circularDiffMinutes hMin anchor
      if diff < 120 then ((120 - diff : ℤ) : ℚ) * (20 / 120) else 0)).sum) +
  ((majors.map (fun t =>
      let diff := circularDiffMinutes hMin t
      let amp : ℚ := if isAligned t sr ss then 40 + 30 else 40
      if diff < 90 then ((90 - diff : ℤ) : ℚ) * (amp / 90) else 0)).sum) +
  ((minors.map (fun t =>
      let diff := circularDiffMinutes hMin t
      let amp : ℚ := if isAligned t sr ss then 18 + 15 else 18
      if diff < 60 then ((60 - diff : ℤ) : ℚ) * (amp / 60) else 0)).sum)

/-- The 24-element hourly activity list of the simplified solunar service. -/
def hourlyActivityOf (sr ss : ℤ) (majors minors : List ℤ) : List ℤ :=
  (List.range 24).map
    (fun h => min 100 (max 10 ⌊hourScoreSimple sr ss majors minors h⌋))

/-- Construction of one `FishingDay` by `calculateFishingForecast` in
`solunarService.ts`. -/
noncomputable def mkFishingDay (year month d : ℤ) (lat lon : ℝ)
    (weather : WeatherInfo) : FishingDay :=
  let phaseVal := getMoonPhaseValue year month d
  let doy := dayOfYear year month d
  let sr := timeToMinutes (sunriseHour doy lat lon)
  let ss := timeToMinutes (sunsetHour doy lat lon)
  let peaks := getSolunarPeaks phaseVal (solarNoonOf lon)
  { day := d
    score := dayScore phaseVal sr ss peaks.major peaks.minor
    moonPhase := getMoonPhaseName phaseVal
    moonPhaseValue := phaseVal
    bestTimes := peaks.major
    hourlyActivity := hourlyActivityOf sr ss peaks.major peaks.minor
    events := [("sunrise", sr), ("sunset", ss), ("moonrise", peaks.rise),
               ("moonset", peaks.setTime),
               ("major", peaks.major.getD 0 0), ("major", peaks.major.getD 1 0),
               ("minor", peaks.minor.getD 0 0), ("minor", peaks.minor.getD 1 0)]
    weather := weather }

/-- `calculateFishingForecast` from `solunarService.ts`: fetch the month's
weather map (here: the already-assembled daily cache content, possibly empty
when every segment fetch failed, sliced and gap-filled), then build one
`FishingDay` per calendar day in ascending order.  Every step is total: no
code path raises. -/
noncomputable def calculateFishingForecast (month year : ℤ) (lat lon : ℝ)
    (cache : ℤ → Option WeatherInfo) : MonthlyForecast :=
  let n := daysInMonth year month
  let weatherMap := WeatherService.fetchMonthlyWeather n cache
  { month := month
    year := year
    days := (List.range n).map (fun (i : ℕ) =>
      mkFishingDay year month ((i : ℤ) + 1) lat lon
        ((weatherMap ((i : ℤ) + 1)).getD defaultWeather)) }

end SolunarService

end AnglersPulse

namespace AnglersPulse

open SolunarService WeatherService

/-- Helper: the fetch path persists the entry under the location key with
`fetchedAt = now`. -/
theorem fetchFresh_fetchedAt (store : ℤ × ℤ → Option WeatherCacheEntry)
    (now : ℤ) (key : ℤ × ℤ) (assembled : ℤ → Option WeatherInfo) :
    ((fetchFresh store now key assembled).2.1 key).map
        WeatherCacheEntry.fetchedAt = some now := by
  simp [WeatherService.fetchFresh]

/-- Helper: the fetch path purges every other location's entry. -/
theorem fetchFresh_purge (store : ℤ × ℤ → Option WeatherCacheEntry)
    (now : ℤ) (key : ℤ × ℤ) (assembled : ℤ → Option WeatherInfo)
    (k : ℤ × ℤ) (hk : k ≠ key) :
    (fetchFresh store now key assembled).2.1 k = none := by
  simp [WeatherService.fetchFresh, hk]

/-- Helper: a call with no same-day cache entry takes the fetch path. -/
theorem fetchDailyWeatherCache_miss
    (store : ℤ × ℤ → Option WeatherCacheEntry) (now : ℤ) (lat lon : ℝ)
    (assembled : ℤ → Option WeatherInfo)
    (hmiss : ∀ e, store (cacheKey lat lon) = some e →
        ¬isCacheValidForToday e.fetchedAt now) :
    fetchDailyWeatherCache store now lat lon assembled
      = fetchFresh store now (cacheKey lat lon) assembled := by
  cases hs : store (cacheKey lat lon) with
  | none => simp only [WeatherService.fetchDailyWeatherCache, hs]
  | some e =>
    simp only [WeatherService.fetchDailyWeatherCache, hs]
    rw [if_neg (hmiss e hs)]

/-- Helper: the major contributions are ten times the match count. -/
theorem major_sum_eq (sr ss : ℤ) (l : List ℤ) :
    (l.map (fun m =>
        (if circularDiffMinutes m sr ≤ 90 then 10 else 0) +
        (if circularDiffMinutes m ss ≤ 90 then 10 else 0))).sum
      = 10 * alignedMatches sr ss l := by
  induction l with
  | nil => simp [alignedMatches]
  | cons x xs ih =>
    simp only [List.map_cons, List.sum_cons, alignedMatches, anchorsMatched] at *
    rw [ih]
    split_ifs <;> ring

/-- Helper: the minor contributions are five times the match count. -/
theorem minor_sum_eq (sr ss : ℤ) (l : List ℤ) :
    (l.map (fun m =>
        (if circularDiffMinutes m sr ≤ 90 then 5 else 0) +
        (if circularDiffMinutes m ss ≤ 90 then 5 else 0))).sum
      = 5 * alignedMatches sr ss l := by
  induction l with
  | nil => simp [alignedMatches]
  | cons x xs ih =>
    simp only [List.map_cons, List.sum_cons, alignedMatches, anchorsMatched] at *
    rw [ih]
    split_ifs <;> ring

/-- C9: for every combination of sunrise, sunset, major-peak and minor-peak
times, the alignment bonus added to the daily score is at most 20; before the
cap each qualifying (peak, anchor) match contributes 10 for a major peak and 5
for a minor peak. -/
theorem alignment_bonus_capped (sr ss : ℤ) (majors minors : List ℤ) :
    computeAlignmentBonus sr ss majors minors ≤ 20 ∧
    computeAlignmentBonus sr ss majors minors
      = min 20 (10 * alignedMatches sr ss majors +
                5 * alignedMatches sr ss minors) := by
  constructor
  · exact min_le_left _ _
  · unfold computeAlignmentBonus
    rw [major_sum_eq, minor_sum_eq]

/-- C4 claim theorem: on the documented domain `[0,1)`, `getMoonPhaseName`
agrees with the 8-bucket table with the documented boundary routing (each
bucket inclusive at its lower edge; Waning Crescent closed at `0.97`, New Moon
taking `(0.97, 1)`). -/
theorem getMoonPhaseName_buckets (p : ℝ) (h0 : 0 ≤ p) (h1 : p < 1) :
    getMoonPhaseName p = moonBucketTable p := by
  unfold getMoonPhaseName moonBucketTable
  by_cases h3 : p < 0.03
  · rw [if_pos (Or.inl h3 : p < 0.03 ∨ (0.97 : ℝ) < p),
        if_pos (Or.inl h3 : p < 0.03 ∨ ((0.97 : ℝ) < p ∧ p < 1))]
  by_cases h97 : (0.97 : ℝ) < p
  · rw [if_pos (Or.inr h97 : p < 0.03 ∨ (0.97 : ℝ) < p),
        if_pos (Or.inr ⟨h97, h1⟩ : p < 0.03 ∨ ((0.97 : ℝ) < p ∧ p < 1))]
  rw [if_neg (show ¬(p < 0.03 ∨ (0.97 : ℝ) < p) from by tauto),
      if_neg (show ¬(p < 0.03 ∨ ((0.97 : ℝ) < p ∧ p < 1)) from by tauto)]
  by_cases h22 : p < 0.22
  · rw [if_pos h22, if_pos (⟨not_lt.1 h3, h22⟩ : (0.03 : ℝ) ≤ p ∧ p < 0.22)]
  rw [if_neg h22,
      if_neg (show ¬((0.03 : ℝ) ≤ p ∧ p < 0.22) from fun h => h22 h.2)]
  by_cases h28 : p < 0.28
  · rw [if_pos h28, if_pos (⟨not_lt.1 h22, h28⟩ : (0.22 : ℝ) ≤ p ∧ p < 0.28)]
  rw [if_neg h28,
      if_neg (show ¬((0.22 : ℝ) ≤ p ∧ p < 0.28) from fun h => h28 h.2)]
  by_cases h47 : p < 0.47
  · rw [if_pos h47, if_pos (⟨not_lt.1 h28, h47⟩ : (0.28 : ℝ) ≤ p ∧ p < 0.47)]
  rw [if_neg h47,
      if_neg (show ¬((0.28 : ℝ) ≤ p ∧ p < 0.47) from fun h => h47 h.2)]
  by_cases h53 : p < 0.53
  · rw [if_pos h53, if_pos (⟨not_lt.1 h47, h53⟩ : (0.47 : ℝ) ≤ p ∧ p < 0.53)]
  rw [if_neg h53,
      if_neg (show ¬((0.47 : ℝ) ≤ p ∧ p < 0.53) from fun h => h53 h.2)]
  by_cases h72 : p < 0.72
  · rw [if_pos h72, if_pos (⟨not_lt.1 h53, h72⟩ : (0.53 : ℝ) ≤ p ∧ p < 0.72)]
  rw [if_neg h72,
      if_neg (show ¬((0.53 : ℝ) ≤ p ∧ p < 0.72) from fun h => h72 h.2)]
  by_cases h78 : p < 0.78
  · rw [if_pos h78, if_pos (⟨not_lt.1 h72, h78⟩ : (0.72 : ℝ) ≤ p ∧ p < 0.78)]
  rw [if_neg h78,
      if_neg (show ¬((0.72 : ℝ) ≤ p ∧ p < 0.78) from fun h => h78 h.2)]

/-- C4 witness: the boundary value `0.97` routes to "Waning Crescent" (the
adjacent documented bucket), via the claim theorem at a concrete input. -/
theorem getMoonPhaseName_buckets_witness :
    getMoonPhaseName (97/100 : ℝ) = "Waning Crescent" := by
  have h := getMoonPhaseName_buckets (97/100 : ℝ) (by norm_num) (by norm_num)
  rw [h]
  unfold moonBucketTable
  norm_num

/-- C7 counterexample: with previous-day pressure 1010 and current pressure
1012 the classification yields "rising" (delta 2 exceeds the exclusive 1.0
threshold), not "steady" as the claim states. -/
theorem pressureTrend_1012_counterexample :
    pressureTrendOf 1010 1012 = "rising" ∧ "rising" ≠ "steady" := by
  constructor
  · unfold pressureTrendOf
    norm_num
  · decide

/-- C7 amended claim theorem: given previous-day pressure 1010 the
classification yields "rising" for 1012.5, "steady" for 1011, "falling" for
1008, and in general the threshold is exactly 1.0 hPa, exclusive: "rising" iff
delta > 1.0, "falling" iff delta < -1.0, otherwise "steady". -/
theorem pressureTrend_spec :
    pressureTrendOf 1010 (1012.5 : ℚ) = "rising" ∧
    pressureTrendOf 1010 1011 = "steady" ∧
    pressureTrendOf 1010 1008 = "falling" ∧
    ∀ prev cur : ℚ,
      (pressureTrendOf prev cur = "rising" ↔ cur - prev > 1) ∧
      (pressureTrendOf prev cur = "falling" ↔ cur - prev < -1) ∧
      (pressureTrendOf prev cur = "steady" ↔ -1 ≤ cur - prev ∧ cur - prev ≤ 1) := by
  refine ⟨by unfold pressureTrendOf; norm_num,
          by unfold pressureTrendOf; norm_num,
          by unfold pressureTrendOf; norm_num, ?_⟩
  intro prev cur
  unfold pressureTrendOf
  split_ifs with h1 h2
  · refine ⟨⟨fun _ => h1, fun _ => rfl⟩, ⟨fun h => absurd h (by decide), fun h => by linarith⟩,
      ⟨fun h => absurd h (by decide), fun h => by linarith [h.2]⟩⟩
  · refine ⟨⟨fun h => absurd h (by decide), fun h => absurd h h1⟩,
      ⟨fun _ => h2, fun _ => rfl⟩,
      ⟨fun h => absurd h (by decide), fun h => by linarith [h.1]⟩⟩
  · push_neg at h1 h2
    refine ⟨⟨fun h => absurd h (by decide), fun h => by linarith⟩,
      ⟨fun h => absurd h (by decide), fun h => by linarith⟩,
      ⟨fun _ => ⟨by linarith, h1⟩, fun _ => rfl⟩⟩

/-- Helper: the canonical base phase score is at least 50. -/
theorem computeBasePhaseScore_ge (p : ℝ) :
    50 ≤ OfflineSolunar.computeBasePhaseScore p := by
  unfold OfflineSolunar.computeBasePhaseScore
  have h := Real.neg_one_le_cos (p * Real.pi * 4)
  split_ifs <;> linarith

/-- Helper: the simplified base score is at least 50. -/
theorem baseScoreOf_ge (p : ℝ) : 50 ≤ SolunarService.baseScoreOf p := by
  unfold SolunarService.baseScoreOf
  have h := Real.neg_one_le_cos (p * Real.pi * 4)
  split_ifs <;> linarith

/-- C10 claim theorem: in both scoring variants the daily score is at least 50
(and at most 100): the base score is 50 plus a non-negative phase term, and
the new/full bonus and the alignment bonus are non-negative before the floor
and `min 100` are applied. -/
theorem dayScore_ge_50 (p : ℝ) (sr ss : ℤ) (majors minors : List ℤ) :
    (50 ≤ OfflineSolunar.dayScore p sr ss majors minors ∧
     OfflineSolunar.dayScore p sr ss majors minors ≤ 100) ∧
    (50 ≤ SolunarService.dayScore p sr ss majors minors ∧
     SolunarService.dayScore p sr ss majors minors ≤ 100) := by
  constructor
  · unfold OfflineSolunar.dayScore OfflineSolunar.finalScoreOf
    refine ⟨le_min (by norm_num) (Int.le_floor.2 ?_), min_le_left _ _⟩
    have h1 := computeBasePhaseScore_ge p
    have h2 : (0 : ℝ) ≤ (OfflineSolunar.computeAlignmentBonus sr ss majors minors : ℝ) := by
      positivity
    push_cast
    linarith
  · unfold SolunarService.dayScore
    refine ⟨le_min (by norm_num) (Int.le_floor.2 ?_), min_le_left _ _⟩
    have h1 := baseScoreOf_ge p
    have h2 : (0 : ℝ) ≤ (SolunarService.computeAlignmentBonus sr ss majors minors : ℝ) := by
      positivity
    push_cast
    linarith

/-- C5 counterexample: at phase `p = 0.04` the claim's bonus condition
(`p < 0.05`) holds, but the canonical `computeBasePhaseScore` does not add the
flat `+5`: its value differs from the claimed `base + 5`. -/
theorem basePhaseScore_bonus_counterexample :
    (1/25 : ℝ) < 0.05 ∧
    OfflineSolunar.computeBasePhaseScore (1/25)
      ≠ 50 + 40 * ((Real.cos (4 * Real.pi * (1/25)) + 1) / 2) + 5 := by
  refine ⟨by norm_num, ?_⟩
  unfold OfflineSolunar.computeBasePhaseScore
  rw [if_neg (by norm_num)]
  rw [show (1/25 : ℝ) * Real.pi * 4 = 4 * Real.pi * (1/25) by ring]
  intro h
  nlinarith [h]

/-- C5 amended claim theorem: the canonical base score is
`50 + 40*(cos(4πp)+1)/2`, increased by a flat `+5` exactly when `p < 0.03`,
`p > 0.97`, or `0.47 < p < 0.53` (the simplified variant instead uses the
claimed windows `p < 0.05`, `p > 0.95`, `0.45 < p < 0.55`); the final daily
score is `min(100, floor(base + alignmentBonus))`. -/
theorem basePhaseScore_spec (p : ℝ) :
    (OfflineSolunar.computeBasePhaseScore p
        = 50 + 40 * ((Real.cos (4 * Real.pi * p) + 1) / 2) + 5
      ↔ (p < 0.03 ∨ p > 0.97 ∨ (p > 0.47 ∧ p < 0.53))) ∧
    (¬(p < 0.03 ∨ p > 0.97 ∨ (p > 0.47 ∧ p < 0.53)) →
      OfflineSolunar.computeBasePhaseScore p
        = 50 + 40 * ((Real.cos (4 * Real.pi * p) + 1) / 2)) ∧
    (SolunarService.baseScoreOf p
        = 50 + 40 * ((Real.cos (4 * Real.pi * p) + 1) / 2) + 5
      ↔ (p < 0.05 ∨ p > 0.95 ∨ (p > 0.45 ∧ p < 0.55))) ∧
    (∀ sr ss : ℤ, ∀ majors minors : List ℤ,
      OfflineSolunar.dayScore p sr ss majors minors
        = min 100 ⌊OfflineSolunar.computeBasePhaseScore p +
            (OfflineSolunar.computeAlignmentBonus sr ss majors minors : ℝ)⌋) := by
  have harg : p * Real.pi * 4 = 4 * Real.pi * p := by ring
  refine ⟨?_, ?_, ?_, fun sr ss majors minors => rfl⟩
  · unfold OfflineSolunar.computeBasePhaseScore
    rw [harg]
    split_ifs with h
    · exact ⟨fun _ => h, fun _ => by ring⟩
    · exact ⟨fun he => absurd (by linarith : (5:ℝ) = 0) (by norm_num), fun hc => absurd hc h⟩
  · intro h
    unfold OfflineSolunar.computeBasePhaseScore
    rw [harg, if_neg h]
    ring
  · unfold SolunarService.baseScoreOf
    rw [harg]
    split_ifs with h
    · exact ⟨fun _ => h, fun _ => by ring⟩
    · exact ⟨fun he => absurd (by linarith : (5:ℝ) = 0) (by norm_num), fun hc => absurd hc h⟩

/-- C5 witness: at `p = 1/2` (full moon) the amended condition holds and the
canonical base score equals the formula plus the flat bonus. -/
theorem basePhaseScore_spec_witness :
    OfflineSolunar.computeBasePhaseScore (1/2)
      = 50 + 40 * ((Real.cos (4 * Real.pi * (1/2)) + 1) / 2) + 5 := by
  exact (basePhaseScore_spec (1/2)).1.mpr (by norm_num)

/-- Helper: a left fold of `max` dominates its initial value. -/
theorem foldl_max_init_le (xs : List ℤ) (a : ℤ) : a ≤ xs.foldl max a := by
  induction xs generalizing a with
  | nil => simp
  | cons x xs ih => exact le_trans (le_max_left a x) (ih (max a x))

/-- Helper: a left fold of `max` dominates every list member. -/
theorem mem_le_foldl_max (xs : List ℤ) (a v : ℤ) (hv : v ∈ xs) :
    v ≤ xs.foldl max a := by
  induction xs generalizing a with
  | nil => cases hv
  | cons x xs ih =>
    rcases List.mem_cons.1 hv with rfl | h
    · exact le_trans (le_max_right a v) (foldl_max_init_le xs (max a v))
    · exact ih (max a x) h

/-- Helper: `maxHour` dominates every member of the list. -/
theorem le_maxHour (l : List ℤ) (v : ℤ) (hv : v ∈ l) :
    v ≤ OfflineSolunar.maxHour l := by
  cases l with
  | nil => cases hv
  | cons x xs =>
    rcases List.mem_cons.1 hv with rfl | h
    · exact foldl_max_init_le xs v
    · exact mem_le_foldl_max xs x v h

/-- Helper: every element of the raw clamped hourly curve is in `[10, 100]`. -/
theorem hourlyActivityRaw_bounds (sr ss : ℤ) (majors minors : List ℤ) :
    ∀ v ∈ OfflineSolunar.hourlyActivityRaw sr ss majors minors,
      10 ≤ v ∧ v ≤ 100 := by
  intro v hv
  obtain ⟨h, _, rfl⟩ := List.mem_map.1 hv
  exact ⟨le_min (by norm_num) (le_max_left _ _), min_le_left _ _⟩

/-- Helper: the normalization step preserves membership in `[10, 100]`. -/
theorem normalizeHourly_bounds (s : ℤ) (l : List ℤ)
    (hl : ∀ v ∈ l, 10 ≤ v ∧ v ≤ 100) :
    ∀ v ∈ OfflineSolunar.normalizeHourly s l, 10 ≤ v ∧ v ≤ 100 := by
  intro v hv
  unfold OfflineSolunar.normalizeHourly at hv
  split_ifs at hv with h1 h2
  · obtain ⟨w, hw, rfl⟩ := List.mem_map.1 hv
    obtain ⟨hw10, _⟩ := hl w hw
    have hwm : w ≤ OfflineSolunar.maxHour l := le_maxHour l w hw
    have hm10 : (10:ℤ) ≤ OfflineSolunar.maxHour l := le_trans hw10 hwm
    have hm0 : (0:ℚ) < ((OfflineSolunar.maxHour l : ℤ) : ℚ) := by
      exact_mod_cast lt_of_lt_of_le (by norm_num) hm10
    refine ⟨le_min (by norm_num) (le_trans hw10 (Int.le_floor.2 ?_)), min_le_left _ _⟩
    have hr : (1:ℚ) ≤ 100 / ((OfflineSolunar.maxHour l : ℤ) : ℚ) := by
      rw [le_div_iff hm0]
      have h95 : (OfflineSolunar.maxHour l : ℤ) < 95 := h1.2
      have : ((OfflineSolunar.maxHour l : ℤ) : ℚ) < 95 := by exact_mod_cast h95
      linarith
    have hw0 : (0:ℚ) ≤ (w:ℚ) := by exact_mod_cast le_trans (by norm_num) hw10
    calc ((w:ℤ):ℚ) = (w:ℚ) * 1 := by ring
      _ ≤ (w:ℚ) * (100 / ((OfflineSolunar.maxHour l : ℤ) : ℚ)) :=
          mul_le_mul_of_nonneg_left hr hw0
  · obtain ⟨w, hw, rfl⟩ := List.mem_map.1 hv
    obtain ⟨hw10, _⟩ := hl w hw
    have hwm : w ≤ OfflineSolunar.maxHour l := le_maxHour l w hw
    have hm10 : (10:ℤ) ≤ OfflineSolunar.maxHour l := le_trans hw10 hwm
    have hm0 : (0:ℚ) < ((OfflineSolunar.maxHour l : ℤ) : ℚ) := by
      exact_mod_cast lt_of_lt_of_le (by norm_num) hm10
    constructor
    · refine le_trans hw10 (Int.le_floor.2 ?_)
      have hr : (1:ℚ) ≤ 85 / ((OfflineSolunar.maxHour l : ℤ) : ℚ) := by
        rw [le_div_iff hm0]
        have h80 : (OfflineSolunar.maxHour l : ℤ) < 80 := h2.2
        have : ((OfflineSolunar.maxHour l : ℤ) : ℚ) < 80 := by exact_mod_cast h80
        linarith
      have hw0 : (0:ℚ) ≤ (w:ℚ) := by exact_mod_cast le_trans (by norm_num) hw10
      calc ((w:ℤ):ℚ) = (w:ℚ) * 1 := by ring
        _ ≤ (w:ℚ) * (85 / ((OfflineSolunar.maxHour l : ℤ) : ℚ)) :=
            mul_le_mul_of_nonneg_left hr hw0
    · have hle : (w:ℚ) * (85 / ((OfflineSolunar.maxHour l : ℤ) : ℚ)) ≤ 85 := by
        rw [mul_div_assoc']
        rw [div_le_iff hm0]
        have : (w:ℚ) ≤ ((OfflineSolunar.maxHour l : ℤ) : ℚ) := by exact_mod_cast hwm
        nlinarith
      have h85 : (⌊(85:ℚ)⌋ : ℤ) = 85 := by norm_num
      have := Int.floor_le_floor hle
      rw [h85] at this
      linarith
  · exact hl v hv

/-- Helper: the normalization step preserves list length. -/
theorem normalizeHourly_length (s : ℤ) (l : List ℤ) :
    (OfflineSolunar.normalizeHourly s l).length = l.length := by
  unfold OfflineSolunar.normalizeHourly
  split_ifs <;> simp

/-- Helper: the offline daily score lies in `[50, 100]`. -/
theorem offline_dayScore_bounds (p : ℝ) (sr ss : ℤ) (majors minors : List ℤ) :
    50 ≤ OfflineSolunar.dayScore p sr ss majors minors ∧
    OfflineSolunar.dayScore p sr ss majors minors ≤ 100 := by
  unfold OfflineSolunar.dayScore OfflineSolunar.finalScoreOf
  refine ⟨le_min (by norm_num) (Int.le_floor.2 ?_), min_le_left _ _⟩
  have h1 := computeBasePhaseScore_ge p
  have h2 : (0 : ℝ) ≤ (OfflineSolunar.computeAlignmentBonus sr ss majors minors : ℝ) := by
    positivity
  push_cast
  linarith

/-- Helper: a nonempty integer range decomposes at its head. -/
theorem rangeList_cons (a b : ℤ) (h : a ≤ b) :
    rangeList a b = a :: rangeList (a + 1) b := by
  unfold rangeList
  have h1 : (b + 1 - a).toNat = (b + 1 - (a + 1)).toNat + 1 := by omega
  rw [h1, List.range_succ_eq_map, List.map_cons, List.map_map]
  congr 1
  · simp
  · apply List.map_congr_left
    intro i _
    simp only [Function.comp_apply]
    push_cast
    ring

/-- Helper: an empty integer range. -/
theorem rangeList_empty (a b : ℤ) (h : b < a) : rangeList a b = [] := by
  unfold rangeList
  have h1 : (b + 1 - a).toNat = 0 := by omega
  rw [h1]
  rfl

/-- Helper: membership in an integer range list. -/
theorem mem_rangeList {a b k : ℤ} : k ∈ rangeList a b ↔ a ≤ k ∧ k ≤ b := by
  unfold rangeList
  simp only [List.mem_map, List.mem_range]
  constructor
  · rintro ⟨i, hi, rfl⟩
    omega
  · rintro ⟨h1, h2⟩
    exact ⟨(k - a).toNat, by omega, by omega⟩

/-- Helper: a point update does not change other keys. -/
theorem update_ne {α : Type} (m : ℤ → Option α) (a : ℤ) (v : α) (k : ℤ)
    (h : k ≠ a) : update m a v k = m k := by
  unfold update
  rw [if_neg h]

/-- Helper: `fillMissingDays` only writes keys of the walked list. -/
theorem fillMissingDays_not_mem (l : List ℤ) :
    ∀ (m : ℤ → Option WeatherInfo) (last : Option WeatherInfo) (k : ℤ),
      k ∉ l → WeatherService.fillMissingDays m last l k = m k := by
  induction l with
  | nil => intro m last k _; rfl
  | cons x xs ih =>
    intro m last k hk
    have hx : k ≠ x := fun h => hk (h ▸ List.mem_cons_self x xs)
    have hxs : k ∉ xs := fun h => hk (List.mem_cons_of_mem x h)
    cases hmx : m x with
    | some v =>
      simp only [WeatherService.fillMissingDays, hmx]
      exact ih m (some v) k hxs
    | none =>
      cases last with
      | some w =>
        simp only [WeatherService.fillMissingDays, hmx]
        rw [ih _ _ k hxs, update_ne _ _ _ _ hx]
      | none =>
        simp only [WeatherService.fillMissingDays, hmx]
        rw [ih _ _ k hxs, update_ne _ _ _ _ hx]

/-- Helper: `lastKnown` only depends on the map's values along the list. -/
theorem lastKnown_congr (l : List ℤ) :
    ∀ (m m2 : ℤ → Option WeatherInfo) (acc : Option WeatherInfo),
      (∀ j ∈ l, m j = m2 j) →
      WeatherService.lastKnown m l acc = WeatherService.lastKnown m2 l acc := by
  induction l with
  | nil => intro m m2 acc _; rfl
  | cons x xs ih =>
    intro m m2 acc hm
    simp only [WeatherService.lastKnown]
    rw [hm x (List.mem_cons_self x xs)]
    exact ih m m2 _ (fun j hj => hm j (List.mem_cons_of_mem x hj))

/-- Helper: characterization of `fillMissingDays` over an integer range — a
present day keeps its value, a missing day gets the most recent preceding
present value along the range (with the supplied fallback, then the fixed
default). -/
theorem fill_char_aux (n : ℕ) :
    ∀ (a b k : ℤ) (m : ℤ → Option WeatherInfo) (last : Option WeatherInfo),
      (b + 1 - a).toNat = n → a ≤ k → k ≤ b →
      WeatherService.fillMissingDays m last (rangeList a b) k
        = some ((m k).getD
            ((WeatherService.lastKnown m (rangeList a (k - 1)) last).getD
              defaultWeather)) := by
  induction n with
  | zero => intro a b k m last hn h1 h2; omega
  | succ n ih =>
    intro a b k m last hn h1 h2
    have hab : a ≤ b := le_trans h1 h2
    rw [rangeList_cons a b hab]
    rcases eq_or_lt_of_le h1 with rfl | hak
    · -- k = a: the head step decides this key; the tail never rewrites it.
      rw [rangeList_empty a (a - 1) (by omega), WeatherService.lastKnown]
      have hnot : a ∉ rangeList (a + 1) b := fun hmem => by
        have := mem_rangeList.1 hmem; omega
      cases hma : m a with
      | some v =>
        simp only [WeatherService.fillMissingDays, hma]
        rw [fillMissingDays_not_mem _ _ _ _ hnot, hma]
        rfl
      | none =>
        cases last with
        | some w =>
          simp only [WeatherService.fillMissingDays, hma]
          rw [fillMissingDays_not_mem _ _ _ _ hnot]
          unfold update
          rw [if_pos rfl]
          rfl
        | none =>
          simp only [WeatherService.fillMissingDays, hma]
          rw [fillMissingDays_not_mem _ _ _ _ hnot]
          unfold update
          rw [if_pos rfl]
          rfl
    · -- a < k: recurse into the tail and push the head into `lastKnown`.
      have hka : k ≠ a := by omega
      have hstep : rangeList a (k - 1) = a :: rangeList (a + 1) (k - 1) :=
        rangeList_cons a (k - 1) (by omega)
      have hanot : a ∉ rangeList (a + 1) (k - 1) := fun hmem => by
        have := mem_rangeList.1 hmem; omega
      cases hma : m a with
      | some v =>
        simp only [WeatherService.fillMissingDays, hma]
        rw [ih (a + 1) b k m (some v) (by omega) (by omega) h2]
        rw [hstep]
        simp only [WeatherService.lastKnown, hma]
      | none =>
        cases last with
        | some w =>
          simp only [WeatherService.fillMissingDays, hma]
          rw [ih (a + 1) b k (update m a w) (some w) (by omega) (by omega) h2]
          rw [hstep]
          simp only [WeatherService.lastKnown, hma]
          rw [update_ne _ _ _ _ hka]
          rw [lastKnown_congr _ (update m a w) m (some w)
              (fun j hj => update_ne m a w j (by have := mem_rangeList.1 hj; omega))]
        | none =>
          simp only [WeatherService.fillMissingDays, hma]
          rw [ih (a + 1) b k (update m a defaultWeather) none (by omega) (by omega) h2]
          rw [hstep]
          simp only [WeatherService.lastKnown, hma]
          rw [update_ne _ _ _ _ hka]
          rw [lastKnown_congr _ (update m a defaultWeather) m none
              (fun j hj => update_ne m a defaultWeather j
                (by have := mem_rangeList.1 hj; omega))]

/-- Helper: clean form of the gap-filling characterization. -/
theorem fillMissingDays_char (a b k : ℤ) (m : ℤ → Option WeatherInfo)
    (last : Option WeatherInfo) (h1 : a ≤ k) (h2 : k ≤ b) :
    WeatherService.fillMissingDays m last (rangeList a b) k
      = some ((m k).getD
          ((WeatherService.lastKnown m (rangeList a (k - 1)) last).getD
            defaultWeather)) :=
  fill_char_aux (b + 1 - a).toNat a b k m last rfl h1 h2

/-- Helper: `lastKnown` over a list where the map is nowhere present. -/
theorem lastKnown_all_none (l : List ℤ) :
    ∀ (m : ℤ → Option WeatherInfo) (acc : Option WeatherInfo),
      (∀ j ∈ l, m j = none) → WeatherService.lastKnown m l acc = acc := by
  induction l with
  | nil => intro m acc _; rfl
  | cons x xs ih =>
    intro m acc hm
    simp only [WeatherService.lastKnown, hm x (List.mem_cons_self x xs)]
    exact ih m acc (fun j hj => hm j (List.mem_cons_of_mem x hj))

/-- Helper: `lastKnown` over an appended list scans left to right. -/
theorem lastKnown_append (l1 l2 : List ℤ) :
    ∀ (m : ℤ → Option WeatherInfo) (acc : Option WeatherInfo),
      WeatherService.lastKnown m (l1 ++ l2) acc
        = WeatherService.lastKnown m l2 (WeatherService.lastKnown m l1 acc) := by
  induction l1 with
  | nil => intro m acc; rfl
  | cons x xs ih =>
    intro m acc
    simp only [List.cons_append, WeatherService.lastKnown]
    exact ih m _

/-- Helper: splitting an integer range list at an interior point. -/
theorem rangeList_append (c : ℤ) : ∀ (a b : ℤ), a ≤ c + 1 → c ≤ b →
    rangeList a b = rangeList a c ++ rangeList (c + 1) b := by
  intro a b h1 h2
  by_cases hac : c < a
  · have : a = c + 1 := by omega
    rw [rangeList_empty a c (by omega), this]
    rfl
  · push_neg at hac
    -- induction on the length of the prefix range
    have key : ∀ (len : ℕ) (a : ℤ), (c + 1 - a).toNat = len → a ≤ c →
        rangeList a b = rangeList a c ++ rangeList (c + 1) b := by
      intro len
      induction len with
      | zero => intro a hlen hac2; omega
      | succ n ih =>
        intro a hlen hac2
        rw [rangeList_cons a b (by omega), rangeList_cons a c hac2]
        by_cases h : a + 1 ≤ c
        · rw [ih (a + 1) (by omega) h]
          rfl
        · have hc : a = c := by omega
          rw [rangeList_empty (a + 1) c (by omega)]
          subst hc
          rfl
    exact key (c + 1 - a).toNat a rfl hac

/-- Helper: a singleton integer range. -/
theorem rangeList_single (a : ℤ) : rangeList a a = [a] := by
  unfold rangeList
  have h : (a + 1 - a).toNat = 1 := by omega
  rw [h, show List.range 1 = [0] from rfl, List.map_cons, List.map_nil]
  norm_num

/-- Helper: `mostRecentBefore` really is the most recent preceding present
value — when nothing before `k` is present it returns `none`. -/
theorem mostRecentBefore_none (m : ℤ → Option WeatherInfo) (a k : ℤ)
    (h : ∀ j, a ≤ j → j < k → m j = none) :
    WeatherService.mostRecentBefore m a k = none := by
  unfold WeatherService.mostRecentBefore
  exact lastKnown_all_none _ m none (fun j hj => by
    have := mem_rangeList.1 hj
    exact h j (by omega) (by omega))

/-- Helper: `mostRecentBefore` really is the most recent preceding present
value — it returns the value of the latest present day before `k`. -/
theorem mostRecentBefore_found (m : ℤ → Option WeatherInfo) (a k j : ℤ)
    (v : WeatherInfo) (haj : a ≤ j) (hjk : j < k) (hj : m j = some v)
    (hafter : ∀ i, j < i → i < k → m i = none) :
    WeatherService.mostRecentBefore m a k = some v := by
  unfold WeatherService.mostRecentBefore
  rw [rangeList_append j a (k - 1) (by omega) (by omega),
      lastKnown_append]
  rw [lastKnown_all_none _ m _ (fun i hi => by
    have := mem_rangeList.1 hi
    exact hafter i (by omega) (by omega))]
  rw [rangeList_append (j - 1) a j (by omega) (by omega)]
  have hjj : rangeList (j - 1 + 1) j = [j] := by
    rw [show j - 1 + 1 = j by ring, rangeList_single]
  rw [hjj, lastKnown_append]
  simp only [WeatherService.lastKnown, hj]

/-- Helper: characterization of the month slice + gap fill performed by
`fetchMonthlyWeather`: inside the month, a day present in the cache keeps its
value; a missing day receives the most recent preceding cached value, or the
fixed default when no preceding value exists. -/
theorem fetchMonthlyWeather_char (n : ℕ) (cache : ℤ → Option WeatherInfo)
    (k : ℤ) (h1 : 1 ≤ k) (h2 : k ≤ (n : ℤ)) :
    WeatherService.fetchMonthlyWeather n cache k
      = some ((cache k).getD
          ((WeatherService.mostRecentBefore cache 1 k).getD defaultWeather)) := by
  unfold WeatherService.fetchMonthlyWeather WeatherService.mostRecentBefore
  rw [fillMissingDays_char 1 (n : ℤ) k _ none h1 h2]
  have hs : (if 1 ≤ k ∧ k ≤ (n : ℤ) then cache k else none) = cache k :=
    if_pos ⟨h1, h2⟩
  have hl : WeatherService.lastKnown
        (fun j => if 1 ≤ j ∧ j ≤ (n : ℤ) then cache j else none)
        (rangeList 1 (k - 1)) none
      = WeatherService.lastKnown cache (rangeList 1 (k - 1)) none := by
    apply lastKnown_congr
    intro j hj
    have := mem_rangeList.1 hj
    exact if_pos ⟨by omega, by omega⟩
  rw [hs, hl]

/-- C1 claim theorem: for any valid month and any assembled weather data
(including the empty map, modelling every segment fetch failing — the whole
pipeline is total, so nothing can raise), `calculateFishingForecast` returns
one `FishingDay` per calendar day with day numbers ascending `1..n`, and each
day's weather is the cached value for that date, or the most recent preceding
cached value, or the fixed default (tempHigh 20, tempLow 12, pressure 1013
steady, windSpeed 5, windDirection NW, conditions Clear). -/
theorem calculateFishingForecast_total (month year : ℤ) (lat lon : ℝ)
    (cache : ℤ → Option WeatherInfo) (hm1 : 1 ≤ month) (hm2 : month ≤ 12) :
    (SolunarService.calculateFishingForecast month year lat lon cache).days.length
        = daysInMonth year month ∧
    defaultWeather = { tempHigh := 20, tempLow := 12, pressure := 1013,
                       pressureTrend := "steady", windSpeed := 5,
                       windDirection := "NW", conditions := "Clear" } ∧
    ∀ (i : ℕ)
      (h : i < (SolunarService.calculateFishingForecast month year lat lon cache).days.length),
      ((SolunarService.calculateFishingForecast month year lat lon cache).days.get
          ⟨i, h⟩).day = (i : ℤ) + 1 ∧
      ((SolunarService.calculateFishingForecast month year lat lon cache).days.get
          ⟨i, h⟩).weather
        = (cache ((i : ℤ) + 1)).getD
            ((WeatherService.mostRecentBefore cache 1 ((i : ℤ) + 1)).getD
              defaultWeather) := by
  have hlen : (SolunarService.calculateFishingForecast month year lat lon cache).days.length
      = daysInMonth year month := by
    simp [SolunarService.calculateFishingForecast]
  refine ⟨hlen, rfl, ?_⟩
  intro i h
  have hin : i < daysInMonth year month := hlen ▸ h
  have hget : (SolunarService.calculateFishingForecast month year lat lon cache).days.get ⟨i, h⟩
      = SolunarService.mkFishingDay year month ((i : ℤ) + 1) lat lon
          ((WeatherService.fetchMonthlyWeather (daysInMonth year month) cache
              ((i : ℤ) + 1)).getD defaultWeather) := by
    simp [SolunarService.calculateFishingForecast, List.get_eq_getElem]
  rw [hget]
  constructor
  · rfl
  · show ((WeatherService.fetchMonthlyWeather (daysInMonth year month) cache
        ((i : ℤ) + 1)).getD defaultWeather) = _
    rw [fetchMonthlyWeather_char (daysInMonth year month) cache ((i : ℤ) + 1)
        (by omega) (by omega)]
    rfl

/-- C1 witness: February 2025 with every weather segment failed (empty
assembled data) still yields a forecast with 28 days. -/
theorem calculateFishingForecast_total_witness :
    (SolunarService.calculateFishingForecast 2 2025 (45.2671 : ℝ) (19.8335 : ℝ)
        (fun _ => none)).days.length = 28 := by
  have h := calculateFishingForecast_total 2 2025 (45.2671 : ℝ) (19.8335 : ℝ)
    (fun _ => none) (by norm_num) (by norm_num)
  rw [h.1]
  decide

/-- Helper: within one segment, the first day that has data is aggregated
with no previous-day pressure. -/
theorem fetchAndAggregateDaily_first
    (buckets : ℤ → List WeatherService.HourlySample) (endd k : ℤ) :
    ∀ (n : ℕ) (a : ℤ) (prev : Option ℤ),
      (endd + 1 - a).toNat = n → a ≤ k → k ≤ endd →
      (∀ j, a ≤ j → j < k → (buckets j).isEmpty = true) →
      (buckets k).isEmpty = false →
      WeatherService.fetchAndAggregateDaily buckets (rangeList a endd) prev k
        = some (WeatherService.aggregateDay (buckets k) prev) := by
  intro n
  induction n with
  | zero => intro a prev hn h1 h2 _ _; omega
  | succ n ih =>
    intro a prev hn h1 h2 hbef hk
    rw [rangeList_cons a endd (le_trans h1 h2)]
    rcases eq_or_lt_of_le h1 with rfl | hak
    · simp only [WeatherService.fetchAndAggregateDaily, hk]
      show update _ a (WeatherService.aggregateDay (buckets a) prev) a = _
      unfold update
      rw [if_pos rfl]
    · have hae : (buckets a).isEmpty = true := hbef a le_rfl hak
      simp only [WeatherService.fetchAndAggregateDaily, hae]
      exact ih (a + 1) prev (by omega) (by omega) h2
        (fun j hj1 hj2 => hbef j (by omega) hj2) hk

/-- Helper: the second day with data in a segment is aggregated against the
first data day's pressure — the carry is chronological within one segment. -/
theorem fetchAndAggregateDaily_second
    (buckets : ℤ → List WeatherService.HourlySample) (endd k1 k2 : ℤ) :
    ∀ (n : ℕ) (a : ℤ) (prev : Option ℤ),
      (endd + 1 - a).toNat = n → a ≤ k1 → k1 < k2 → k2 ≤ endd →
      (∀ j, a ≤ j → j < k1 → (buckets j).isEmpty = true) →
      (buckets k1).isEmpty = false →
      (∀ j, k1 < j → j < k2 → (buckets j).isEmpty = true) →
      (buckets k2).isEmpty = false →
      WeatherService.fetchAndAggregateDaily buckets (rangeList a endd) prev k2
        = some (WeatherService.aggregateDay (buckets k2)
            (some (WeatherService.aggregateDay (buckets k1) prev).pressure)) := by
  intro n
  induction n with
  | zero => intro a prev hn h1 h12 h2 _ _ _ _; omega
  | succ n ih =>
    intro a prev hn h1 h12 h2 hbef hk1 hmid hk2
    rw [rangeList_cons a endd (by omega)]
    rcases eq_or_lt_of_le h1 with heq | hak1
    · subst heq
      simp only [WeatherService.fetchAndAggregateDaily, hk1]
      show update
          (WeatherService.fetchAndAggregateDaily buckets (rangeList (a + 1) endd)
            (some (WeatherService.aggregateDay (buckets a) prev).pressure))
          a (WeatherService.aggregateDay (buckets a) prev) k2 = _
      rw [update_ne _ _ _ _ (by omega : k2 ≠ a)]
      exact fetchAndAggregateDaily_first buckets endd k2
        (endd + 1 - (a + 1)).toNat (a + 1)
        (some (WeatherService.aggregateDay (buckets a) prev).pressure)
        rfl (by omega) h2 (fun j hj1 hj2 => hmid j (by omega) hj2) hk2
    · have hae : (buckets a).isEmpty = true := hbef a le_rfl hak1
      simp only [WeatherService.fetchAndAggregateDaily, hae]
      exact ih (a + 1) prev (by omega) (by omega) h12 h2
        (fun j hj1 hj2 => hbef j (by omega) hj2) hk1 hmid hk2

/-- C6 amended claim theorem: the previous-day pressure is carried forward
chronologically only within each source segment, and it IS reset at segment
boundaries: each `fetchAndAggregateDaily` call starts with no previous-day
pressure, so the first aggregated day of every segment has trend "steady"
(it does not compare against the preceding segment's last day), while the
segment's next data day compares against the first day's pressure. -/
theorem segment_pressure_trend_reset
    (buckets : ℤ → List WeatherService.HourlySample) (start endd k1 k2 : ℤ)
    (h1 : start ≤ k1) (h12 : k1 < k2) (h2 : k2 ≤ endd)
    (hk1 : (buckets k1).isEmpty = false) (hk2 : (buckets k2).isEmpty = false)
    (hbef : ∀ j, start ≤ j → j < k1 → (buckets j).isEmpty = true)
    (hmid : ∀ j, k1 < j → j < k2 → (buckets j).isEmpty = true) :
    WeatherService.aggregateSegment buckets start endd k1
      = some (WeatherService.aggregateDay (buckets k1) none) ∧
    (WeatherService.aggregateDay (buckets k1) none).pressureTrend = "steady" ∧
    WeatherService.aggregateSegment buckets start endd k2
      = some (WeatherService.aggregateDay (buckets k2)
          (some (WeatherService.aggregateDay (buckets k1) none).pressure)) := by
  refine ⟨?_, rfl, ?_⟩
  · exact fetchAndAggregateDaily_first buckets endd k1
      (endd + 1 - start).toNat start none rfl h1 (by omega) hbef hk1
  · exact fetchAndAggregateDaily_second buckets endd k1 k2
      (endd + 1 - start).toNat start none rfl h1 h12 h2 hbef hk1 hmid hk2

/-- C6 witness: the amended theorem at a concrete two-data-day segment. -/
theorem segment_pressure_trend_reset_witness :
    WeatherService.aggregateSegment WeatherService.segBucketsAB 0 1 0
      = some (WeatherService.aggregateDay (WeatherService.segBucketsAB 0) none) ∧
    (WeatherService.aggregateDay (WeatherService.segBucketsAB 0) none).pressureTrend
      = "steady" ∧
    WeatherService.aggregateSegment WeatherService.segBucketsAB 0 1 1
      = some (WeatherService.aggregateDay (WeatherService.segBucketsAB 1)
          (some (WeatherService.aggregateDay (WeatherService.segBucketsAB 0)
              none).pressure)) :=
  segment_pressure_trend_reset WeatherService.segBucketsAB 0 1 0 1
    le_rfl (by norm_num) le_rfl (by rfl) (by rfl)
    (fun j hj1 hj2 => absurd (lt_of_le_of_lt hj1 hj2) (lt_irrefl 0))
    (fun j hj1 hj2 => absurd hj1 (by omega))

/-- C6 counterexample: two consecutive one-day segments (archive day 0 with
pressure 1010, forecast day 1 with pressure 1020).  The first day of the later
segment is classified "steady", although comparing against the preceding
segment's last day (as the claim states) would give "rising", since the delta
is 10 hPa. -/
theorem pressure_carry_counterexample :
    (WeatherService.aggregateSegment WeatherService.segBucketsA 0 0 0).map
        WeatherInfo.pressure = some 1010 ∧
    (WeatherService.aggregateSegment WeatherService.segBucketsB 1 1 1).map
        WeatherInfo.pressure = some 1020 ∧
    (WeatherService.aggregateSegment WeatherService.segBucketsB 1 1 1).map
        WeatherInfo.pressureTrend = some "steady" ∧
    pressureTrendOf 1010 1020 = "rising" ∧ "steady" ≠ "rising" := by
  have hA : WeatherService.aggregateSegment WeatherService.segBucketsA 0 0 0
      = some (WeatherService.aggregateDay (WeatherService.segBucketsA 0) none) :=
    fetchAndAggregateDaily_first WeatherService.segBucketsA 0 0 1 0 none
      (by norm_num) le_rfl le_rfl
      (fun j hj1 hj2 => absurd (lt_of_le_of_lt hj1 hj2) (lt_irrefl 0))
      (by rfl)
  have hB : WeatherService.aggregateSegment WeatherService.segBucketsB 1 1 1
      = some (WeatherService.aggregateDay (WeatherService.segBucketsB 1) none) :=
    fetchAndAggregateDaily_first WeatherService.segBucketsB 1 1 1 1 none
      (by norm_num) le_rfl le_rfl
      (fun j hj1 hj2 => absurd (lt_of_le_of_lt hj1 hj2) (lt_irrefl 1))
      (by rfl)
  refine ⟨?_, ?_, ?_, ?_, ?_⟩
  · rw [hA, Option.map_some']
    congr 1
    show (WeatherService.aggregateDay (WeatherService.segBucketsA 0) none).pressure = 1010
    simp only [WeatherService.aggregateDay, WeatherService.segBucketsA,
      WeatherService.mean, jsRound]
    norm_num [List.filterMap_cons, List.filterMap_nil]
  · rw [hB, Option.map_some']
    congr 1
    show (WeatherService.aggregateDay (WeatherService.segBucketsB 1) none).pressure = 1020
    simp only [WeatherService.aggregateDay, WeatherService.segBucketsB,
      WeatherService.mean, jsRound]
    norm_num [List.filterMap_cons, List.filterMap_nil]
  · rw [hB, Option.map_some']
    rfl
  · unfold pressureTrendOf
    norm_num
  · decide

/-- Helper: a call finding a same-day cache entry returns it unconditionally
without fetching. -/
theorem fetchDailyWeatherCache_hit
    (store : ℤ × ℤ → Option WeatherCacheEntry) (now : ℤ) (lat lon : ℝ)
    (assembled : ℤ → Option WeatherInfo) (e : WeatherCacheEntry)
    (hstore : store (cacheKey lat lon) = some e)
    (hvalid : isCacheValidForToday e.fetchedAt now) :
    fetchDailyWeatherCache store now lat lon assembled
      = (e.data, store, false) := by
  simp only [WeatherService.fetchDailyWeatherCache, hstore]
  rw [if_pos hvalid]

/-- C3 claim theorem: (i) when a cached entry for the location exists and was
fetched on the current calendar day, its data is returned unconditionally and
no fetch is issued; (ii) otherwise the full segmented fetch runs, the
gap-filled result is persisted with `fetchedAt = now`, entries of all other
locations are purged, and a fetch is reported; (iii) hence two calls on the
same calendar day issue exactly one underlying fetch (the second returns the
first call's data); (iv) a call on a different (e.g. the following) calendar
day issues a fresh fetch. -/
theorem weatherCache_spec :
    (∀ (store : ℤ × ℤ → Option WeatherCacheEntry) (now : ℤ) (lat lon : ℝ)
        (assembled : ℤ → Option WeatherInfo) (e : WeatherCacheEntry),
        store (cacheKey lat lon) = some e →
        isCacheValidForToday e.fetchedAt now →
        fetchDailyWeatherCache store now lat lon assembled
          = (e.data, store, false)) ∧
    (∀ (store : ℤ × ℤ → Option WeatherCacheEntry) (now : ℤ) (lat lon : ℝ)
        (assembled : ℤ → Option WeatherInfo),
        (∀ e, store (cacheKey lat lon) = some e →
            ¬isCacheValidForToday e.fetchedAt now) →
        fetchDailyWeatherCache store now lat lon assembled
            = fetchFresh store now (cacheKey lat lon) assembled ∧
        ((fetchDailyWeatherCache store now lat lon assembled).2.1
            (cacheKey lat lon)).map WeatherCacheEntry.fetchedAt = some now ∧
        (∀ k, k ≠ cacheKey lat lon →
            (fetchDailyWeatherCache store now lat lon assembled).2.1 k = none) ∧
        (fetchDailyWeatherCache store now lat lon assembled).2.2 = true) ∧
    (∀ (store : ℤ × ℤ → Option WeatherCacheEntry) (now1 now2 : ℤ)
        (lat lon : ℝ) (a1 a2 : ℤ → Option WeatherInfo),
        store (cacheKey lat lon) = none →
        dayIndex now1 = dayIndex now2 →
        (fetchDailyWeatherCache store now1 lat lon a1).2.2 = true ∧
        (fetchDailyWeatherCache
            (fetchDailyWeatherCache store now1 lat lon a1).2.1
            now2 lat lon a2).2.2 = false ∧
        (fetchDailyWeatherCache
            (fetchDailyWeatherCache store now1 lat lon a1).2.1
            now2 lat lon a2).1
          = (fetchDailyWeatherCache store now1 lat lon a1).1) ∧
    (∀ (store : ℤ × ℤ → Option WeatherCacheEntry) (now1 now3 : ℤ)
        (lat lon : ℝ) (a1 a3 : ℤ → Option WeatherInfo),
        store (cacheKey lat lon) = none →
        dayIndex now3 ≠ dayIndex now1 →
        (fetchDailyWeatherCache
            (fetchDailyWeatherCache store now1 lat lon a1).2.1
            now3 lat lon a3).2.2 = true) := by
  have hmiss_of_none :
      ∀ (store : ℤ × ℤ → Option WeatherCacheEntry) (now : ℤ) (lat lon : ℝ),
        store (cacheKey lat lon) = none →
        ∀ e, store (cacheKey lat lon) = some e →
          ¬isCacheValidForToday e.fetchedAt now := by
    intro store now lat lon hstore e he
    rw [hstore] at he
    exact Option.noConfusion he
  have hS1 : ∀ (store : ℤ × ℤ → Option WeatherCacheEntry) (now1 : ℤ)
      (lat lon : ℝ) (a1 : ℤ → Option WeatherInfo),
      store (cacheKey lat lon) = none →
      (fetchDailyWeatherCache store now1 lat lon a1).2.1 (cacheKey lat lon)
        = some { fetchedAt := now1, rangeStart := dayIndex now1 - 7,
                 rangeEnd := dayIndex now1 + 60,
                 data := fillMissingDays a1 none
                   (rangeList (dayIndex now1 - 7) (dayIndex now1 + 60)) } := by
    intro store now1 lat lon a1 hstore
    rw [fetchDailyWeatherCache_miss store now1 lat lon a1
        (hmiss_of_none store now1 lat lon hstore)]
    simp [WeatherService.fetchFresh]
  refine ⟨?_, ?_, ?_, ?_⟩
  · intro store now lat lon assembled e hstore hvalid
    exact fetchDailyWeatherCache_hit store now lat lon assembled e hstore hvalid
  · intro store now lat lon assembled hmiss
    have h := fetchDailyWeatherCache_miss store now lat lon assembled hmiss
    refine ⟨h, ?_, ?_, ?_⟩
    · rw [h]
      exact fetchFresh_fetchedAt store now (cacheKey lat lon) assembled
    · intro k hk
      rw [h]
      exact fetchFresh_purge store now (cacheKey lat lon) assembled k hk
    · rw [h]
      rfl
  · intro store now1 now2 lat lon a1 a2 hstore hsame
    have h1 := fetchDailyWeatherCache_miss store now1 lat lon a1
      (hmiss_of_none store now1 lat lon hstore)
    have h2 := fetchDailyWeatherCache_hit
      (fetchDailyWeatherCache store now1 lat lon a1).2.1 now2 lat lon a2
      _ (hS1 store now1 lat lon a1 hstore)
      (hsame : isCacheValidForToday now1 now2)
    refine ⟨by rw [h1]; rfl, by rw [h2], ?_⟩
    rw [h2, h1]
    rfl
  · intro store now1 now3 lat lon a1 a3 hstore hdiff
    have hm3 : ∀ e, (fetchDailyWeatherCache store now1 lat lon a1).2.1
        (cacheKey lat lon) = some e →
        ¬isCacheValidForToday e.fetchedAt now3 := by
      intro e he
      rw [hS1 store now1 lat lon a1 hstore] at he
      have he2 := Option.some.inj he
      rw [← he2]
      exact fun hv => hdiff ((hv : dayIndex now1 = dayIndex now3).symm)
    rw [fetchDailyWeatherCache_miss _ now3 lat lon a3 hm3]
    rfl

/-- C3 witness: with an empty store, a first call at time 0 fetches, a second
call the same day (t = 1000 ms) does not, and a call the next day
(t = 86 400 000 ms) fetches again. -/
theorem weatherCache_spec_witness :
    (fetchDailyWeatherCache (fun _ => none) 0 0 0 (fun _ => none)).2.2 = true ∧
    (fetchDailyWeatherCache
        (fetchDailyWeatherCache (fun _ => none) 0 0 0 (fun _ => none)).2.1
        1000 0 0 (fun _ => none)).2.2 = false ∧
    (fetchDailyWeatherCache
        (fetchDailyWeatherCache (fun _ => none) 0 0 0 (fun _ => none)).2.1
        86400000 0 0 (fun _ => none)).2.2 = true := by
  obtain ⟨-, -, h3, h4⟩ := weatherCache_spec
  obtain ⟨f1, f2, -⟩ := h3 (fun _ => none) 0 1000 0 0 (fun _ => none)
    (fun _ => none) rfl (by decide)
  exact ⟨f1, f2, h4 (fun _ => none) 0 86400000 0 0 (fun _ => none)
    (fun _ => none) rfl (by decide)⟩

/-- Helper: for latitudes strictly inside the polar circle bound and any
declination of magnitude at most `0.409`, the product of tangents is below 1
(equivalently, the hour-angle argument stays strictly inside `(-1, 1)`). -/
theorem tan_prod_lt_one (x y : ℝ) (hx0 : 0 ≤ x) (hx : x < 66.5 * Real.pi / 180)
    (hy0 : 0 ≤ y) (hy : y ≤ 0.409) : Real.tan x * Real.tan y < 1 := by
  have hpi : (3.141592 : ℝ) < Real.pi := Real.pi_gt_d6
  rcases eq_or_lt_of_le hy0 with heq | hy0'
  · rw [← heq, Real.tan_zero, mul_zero]
    norm_num
  · have hsum : x + y < Real.pi / 2 := by linarith
    have hy2 : y < Real.pi / 2 := by linarith
    have hx2 : x < Real.pi / 2 - y := by linarith
    have htan : Real.tan x < Real.tan (Real.pi / 2 - y) :=
      Real.tan_lt_tan_of_nonneg_of_lt_pi_div_two hx0 (by linarith) hx2
    rw [Real.tan_pi_div_two_sub] at htan
    have hty : 0 < Real.tan y := Real.tan_pos_of_pos_of_lt_pi_div_two hy0' hy2
    calc Real.tan x * Real.tan y < (Real.tan y)⁻¹ * Real.tan y :=
          mul_lt_mul_of_pos_right htan hty
      _ = 1 := inv_mul_cancel₀ (ne_of_gt hty)

/-- Helper: absolute value commutes with `tan` on `(-π/2, π/2)`. -/
theorem abs_tan_of_abs_lt (t : ℝ) (h : |t| < Real.pi / 2) :
    |Real.tan t| = Real.tan |t| := by
  rcases le_or_lt 0 t with h0 | h0
  · rw [abs_of_nonneg h0,
      abs_of_nonneg (Real.tan_nonneg_of_nonneg_of_le_pi_div_two h0
        (le_of_lt ((abs_lt.1 h).2)))]
  · have hneg : Real.tan t < 0 :=
      Real.tan_neg_of_neg_of_pi_div_two_lt h0 (abs_lt.1 h).1
    rw [abs_of_neg h0, abs_of_neg hneg, Real.tan_neg]

/-- Helper: the clamp in `getSolarTimes` is the identity strictly inside
`(-1, 1)`. -/
theorem clamp_id {c : ℝ} (h1 : -1 < c) (h2 : c < 1) :
    max (-1 : ℝ) (min 1 c) = c := by
  rw [min_eq_right h2.le, max_eq_right h1.le]

/-- Helper: the magnitude of the solar declination is at most `0.409`. -/
theorem solarDecl_abs_le (doy : ℤ) : |solarDecl doy| ≤ 0.409 := by
  unfold SolunarService.solarDecl
  rw [abs_mul, abs_of_nonneg (by norm_num : (0:ℝ) ≤ 0.409)]
  have := Real.abs_sin_le_one (2 * Real.pi * ((doy : ℝ) - 81) / 365)
  nlinarith

/-- Helper: for `|lat| < 66.5` the hour angle lies strictly between 0 and 12
hours. -/
theorem hourAngle_bounds (lat : ℝ) (doy : ℤ) (hlat : |lat| < 66.5) :
    0 < hourAngleOf lat doy ∧ hourAngleOf lat doy < 12 := by
  have hpi : (3.141592 : ℝ) < Real.pi := Real.pi_gt_d6
  have hπpos : (0:ℝ) < Real.pi := by linarith
  have hφ : |lat * Real.pi / 180| < 66.5 * Real.pi / 180 := by
    rw [show lat * Real.pi / 180 = lat * (Real.pi / 180) by ring, abs_mul,
        abs_of_nonneg (by positivity : (0:ℝ) ≤ Real.pi / 180)]
    calc |lat| * (Real.pi / 180) < 66.5 * (Real.pi / 180) :=
          mul_lt_mul_of_pos_right hlat (by positivity)
      _ = 66.5 * Real.pi / 180 := by ring
  have hφhalf : |lat * Real.pi / 180| < Real.pi / 2 := by
    have : 66.5 * Real.pi / 180 < Real.pi / 2 := by linarith
    linarith
  have hδ := solarDecl_abs_le doy
  have hδhalf : |solarDecl doy| < Real.pi / 2 := by linarith
  have hprod : |Real.tan (lat * Real.pi / 180) * Real.tan (solarDecl doy)| < 1 := by
    rw [abs_mul, abs_tan_of_abs_lt _ hφhalf, abs_tan_of_abs_lt _ hδhalf]
    exact tan_prod_lt_one _ _ (abs_nonneg _) hφ (abs_nonneg _) hδ
  obtain ⟨hL, hU⟩ := abs_lt.1 hprod
  have hcL : -1 < -Real.tan (lat * Real.pi / 180) * Real.tan (solarDecl doy) := by
    rw [neg_mul]
    linarith
  have hcU : -Real.tan (lat * Real.pi / 180) * Real.tan (solarDecl doy) < 1 := by
    rw [neg_mul]
    linarith
  unfold SolunarService.hourAngleOf
  rw [clamp_id hcL hcU]
  constructor
  · have h1 : 0 < Real.arccos
        (-Real.tan (lat * Real.pi / 180) * Real.tan (solarDecl doy)) :=
      Real.arccos_pos.2 hcU
    exact mul_pos h1 (by positivity)
  · have h2 : Real.arccos
        (-Real.tan (lat * Real.pi / 180) * Real.tan (solarDecl doy)) < Real.pi :=
      lt_of_le_of_ne (Real.arccos_le_pi _)
        (fun he => absurd (Real.arccos_eq_pi.1 he) (by linarith))
    calc Real.arccos _ * (12 / Real.pi) < Real.pi * (12 / Real.pi) :=
          mul_lt_mul_of_pos_right h2 (by positivity)
      _ = 12 := by field_simp

/-- Helper: the solar noon lies in `(11.5, 12.5]`. -/
theorem solarNoon_bounds (lon : ℝ) :
    11.5 < solarNoonOf lon ∧ solarNoonOf lon ≤ 12.5 := by
  unfold SolunarService.solarNoonOf SolunarService.lonCorrection jsRoundR
  have h1 : (⌊lon / 15 + 1/2⌋ : ℝ) ≤ lon / 15 + 1/2 := Int.floor_le _
  have h2 : lon / 15 + 1/2 - 1 < (⌊lon / 15 + 1/2⌋ : ℝ) := Int.sub_one_lt_floor _
  constructor <;> nlinarith

set_option maxHeartbeats 2000000 in
/-- C8 counterexample: at day-of-year 172 (summer solstice), latitude 66.49°
(inside the claimed `|lat| < 66.5` domain) and longitude 22.49° (whose
timezone-slot correction is close to −0.5 h), the raw sunrise value
`solarNoon − H` is negative, so it does not lie within `[0, 24)`. -/
theorem solar_times_range_counterexample :
    |(66.49 : ℝ)| < 66.5 ∧ sunriseHour 172 66.49 22.49 < 0 := by
  have hpiL : (3.141592 : ℝ) < Real.pi := Real.pi_gt_d6
  have hpiU : Real.pi < 3.141593 := Real.pi_lt_d6
  have hπpos : (0:ℝ) < Real.pi := by linarith
  refine ⟨by rw [abs_of_nonneg] <;> norm_num, ?_⟩
  -- the longitude correction: round(22.49/15) = 1
  have hround : jsRoundR ((22.49 : ℝ) / 15) = 1 := by
    unfold jsRoundR
    rw [Int.floor_eq_iff]
    constructor <;> norm_num
  have hnoon : solarNoonOf 22.49 = 17251 / 1500 := by
    unfold SolunarService.solarNoonOf SolunarService.lonCorrection
    rw [hround]
    norm_num
  -- declination at day 172
  have hδdef : solarDecl 172 = 0.409 * Real.sin (2 * Real.pi * 91 / 365) := by
    unfold SolunarService.solarDecl
    norm_num
  have hsin : Real.sin (2 * Real.pi * 91 / 365) = Real.cos (Real.pi / 730) := by
    rw [← Real.cos_pi_div_two_sub]
    congr 1
    ring
  have hc730U : Real.cos (Real.pi / 730) ≤ 1 := Real.cos_le_one _
  have hc730L : (0.99999 : ℝ) < Real.cos (Real.pi / 730) := by
    have hne : Real.pi / 730 ≠ 0 := by positivity
    have hb := Real.one_sub_sq_div_two_lt_cos hne
    nlinarith
  have hδL : (0.408995 : ℝ) < solarDecl 172 := by
    rw [hδdef, hsin]
    nlinarith
  have hδU : solarDecl 172 ≤ 0.409 := by
    rw [hδdef, hsin]
    nlinarith
  -- latitude in radians
  have haL : (1.1604691 : ℝ) < 66.49 * Real.pi / 180 := by nlinarith
  have haU : (66.49 : ℝ) * Real.pi / 180 < 1.1604696 := by nlinarith
  set a : ℝ := 66.49 * Real.pi / 180 with ha
  set δ : ℝ := solarDecl 172 with hδv
  -- bounds on the sum and difference angles
  have hsL : (1.5694641 : ℝ) < a + δ := by linarith
  have hsU : a + δ < 1.5694696 := by linarith
  have hdL : (0.7514691 : ℝ) < a - δ := by linarith
  have hdU : a - δ < 0.7514746 := by linarith
  -- cos of the sum: small and positive
  have hcs_eq : Real.cos (a + δ) = Real.sin (Real.pi / 2 - (a + δ)) :=
    (Real.sin_pi_div_two_sub _).symm
  have hcsU : Real.cos (a + δ) < 0.0013324 := by
    rw [hcs_eq]
    have hpos : 0 < Real.pi / 2 - (a + δ) := by linarith
    have hlt := Real.sin_lt hpos
    linarith
  have hcs_pos : 0 < Real.cos (a + δ) := by
    rw [hcs_eq]
    exact Real.sin_pos_of_pos_of_lt_pi (by linarith) (by linarith)
  -- cos of the difference: bounded away from zero
  have hcd : (0.717 : ℝ) < Real.cos (a - δ) := by
    have hne : a - δ ≠ 0 := ne_of_gt (by linarith : (0:ℝ) < a - δ)
    have hb := Real.one_sub_sq_div_two_lt_cos hne
    have hd2 : (a - δ) ^ 2 < 0.56471407 := by nlinarith
    linarith
  -- positivity of cos a and cos δ
  have hca : 0 < Real.cos a :=
    Real.cos_pos_of_mem_Ioo ⟨by linarith, by linarith⟩
  have hcδ : 0 < Real.cos δ :=
    Real.cos_pos_of_mem_Ioo ⟨by linarith, by linarith⟩
  -- product-to-sum identity for the tangent product
  have hden : 0 < Real.cos (a - δ) + Real.cos (a + δ) := by linarith
  have hprod : Real.tan a * Real.tan δ * (Real.cos (a - δ) + Real.cos (a + δ))
      = Real.cos (a - δ) - Real.cos (a + δ) := by
    rw [Real.tan_eq_sin_div_cos, Real.tan_eq_sin_div_cos, Real.cos_sub, Real.cos_add]
    field_simp
    ring
  have hkey : (0.99148 : ℝ) * (Real.cos (a - δ) + Real.cos (a + δ))
      < Real.cos (a - δ) - Real.cos (a + δ) := by linarith
  have htanprod : (0.99148 : ℝ) < Real.tan a * Real.tan δ := by
    have ht : Real.tan a * Real.tan δ
        = (Real.cos (a - δ) - Real.cos (a + δ)) /
          (Real.cos (a - δ) + Real.cos (a + δ)) :=
      (eq_div_iff (ne_of_gt hden)).mpr hprod
    rw [ht]
    exact (lt_div_iff hden).mpr hkey
  -- upper bound on cos(7.49π/180)
  have huL : (0.1307251 : ℝ) < 7.49 * Real.pi / 180 := by nlinarith
  have huU : (7.49 : ℝ) * Real.pi / 180 < 0.1307252 := by nlinarith
  have hcu : Real.cos (7.49 * Real.pi / 180) < 0.99148 := by
    have habs : |(7.49 : ℝ) * Real.pi / 180| ≤ 1 := by
      rw [abs_of_nonneg (by linarith)]
      linarith
    have hb := (abs_le.1 (Real.cos_bound habs)).2
    rw [abs_of_nonneg (by linarith : (0:ℝ) ≤ 7.49 * Real.pi / 180)] at hb
    have hu2 : (0.0170890 : ℝ) < (7.49 * Real.pi / 180) ^ 2 := by nlinarith
    have hu2U : ((7.49 : ℝ) * Real.pi / 180) ^ 2 < 0.0170891 := by nlinarith
    have hu4 : ((7.49 : ℝ) * Real.pi / 180) ^ 4 < 0.000293 := by
      have h4eq : ((7.49 : ℝ) * Real.pi / 180) ^ 4
          = (((7.49 : ℝ) * Real.pi / 180) ^ 2) ^ 2 := by ring
      rw [h4eq]
      nlinarith [sq_nonneg ((7.49 : ℝ) * Real.pi / 180)]
    nlinarith
  -- the hour-angle argument and its clamp
  have hprodlt1 : Real.tan a * Real.tan δ < 1 := by
    apply tan_prod_lt_one a δ (by linarith) ?_ (by linarith) hδU
    rw [ha]
    nlinarith
  have hc0L : (-1 : ℝ) < -Real.tan a * Real.tan δ := by
    rw [neg_mul]
    linarith
  have hc0U : -Real.tan a * Real.tan δ < -0.99148 := by
    rw [neg_mul]
    linarith
  have hclamp : max (-1 : ℝ) (min 1 (-Real.tan a * Real.tan δ))
      = -Real.tan a * Real.tan δ :=
    clamp_id hc0L (by linarith)
  -- the arccos comparison against θ = 17251π/18000
  have hθL : (0 : ℝ) ≤ 17251 * Real.pi / 18000 := by positivity
  have hθU : (17251 : ℝ) * Real.pi / 18000 ≤ Real.pi := by nlinarith
  have hcosθ : Real.cos (17251 * Real.pi / 18000)
      = -Real.cos (7.49 * Real.pi / 180) := by
    rw [show (17251 : ℝ) * Real.pi / 18000 = Real.pi - 7.49 * Real.pi / 180 by ring]
    exact Real.cos_pi_sub _
  have hlt : -Real.tan a * Real.tan δ < Real.cos (17251 * Real.pi / 18000) := by
    rw [hcosθ]
    linarith
  have harccos : (17251 : ℝ) * Real.pi / 18000
      < Real.arccos (-Real.tan a * Real.tan δ) := by
    have h1 : Real.arccos (Real.cos (17251 * Real.pi / 18000))
        = 17251 * Real.pi / 18000 := Real.arccos_cos hθL hθU
    have h2 := Real.strictAntiOn_arccos
      (show -Real.tan a * Real.tan δ ∈ Set.Icc (-1:ℝ) 1 from
        ⟨hc0L.le, by linarith⟩)
      (show Real.cos (17251 * Real.pi / 18000) ∈ Set.Icc (-1:ℝ) 1 from
        ⟨Real.neg_one_le_cos _, Real.cos_le_one _⟩)
      hlt
    rw [h1] at h2
    exact h2
  -- conclude: sunrise = noon − H < 0
  show sunriseHour 172 66.49 22.49 < 0
  unfold SolunarService.sunriseHour SolunarService.hourAngleOf
  rw [hnoon, hclamp]
  have hfin : (17251 : ℝ) / 1500
      < Real.arccos (-Real.tan a * Real.tan δ) * (12 / Real.pi) := by
    have h3 : (17251 : ℝ) * Real.pi / 18000 * (12 / Real.pi) = 17251 / 1500 := by
      field_simp
      ring
    calc (17251 : ℝ) / 1500 = 17251 * Real.pi / 18000 * (12 / Real.pi) := h3.symm
      _ < Real.arccos (-Real.tan a * Real.tan δ) * (12 / Real.pi) :=
          mul_lt_mul_of_pos_right harccos (by positivity)
  linarith

/-- C8 amended claim theorem: for every date and location with
`|latitude| < 66.5°`, the raw solar hour values satisfy
`sunrise < solarNoon < sunset`; they lie within `(-0.5, 24.5)` but may leave
`[0, 24)` by up to half an hour near the polar bound (the "HH:MM" formatting
normalizes them modulo 24 into `[0, 24)`). -/
theorem solar_times_spec (doy : ℤ) (lat lon : ℝ) (hlat : |lat| < 66.5) :
    sunriseHour doy lat lon < solarNoonOf lon ∧
    solarNoonOf lon < sunsetHour doy lat lon ∧
    -0.5 < sunriseHour doy lat lon ∧ sunsetHour doy lat lon < 24.5 := by
  obtain ⟨hH0, hH12⟩ := hourAngle_bounds lat doy hlat
  obtain ⟨hN1, hN2⟩ := solarNoon_bounds lon
  unfold SolunarService.sunriseHour SolunarService.sunsetHour
  refine ⟨by linarith, by linarith, by linarith, by linarith⟩

/-- C8 witness: the amended bounds at a concrete mid-latitude input. -/
theorem solar_times_spec_witness :
    sunriseHour 100 45 0 < solarNoonOf 0 ∧
    solarNoonOf 0 < sunsetHour 100 45 0 ∧
    -0.5 < sunriseHour 100 45 0 ∧ sunsetHour 100 45 0 < 24.5 :=
  solar_times_spec 100 45 0 (by rw [abs_of_nonneg] <;> norm_num)

/-- C2 claim theorem: for every computed day of the offline solunar service,
the score is an integer in `[0, 100]`, and the hourly activity list has
exactly 24 elements, each in `[10, 100]`; the bounds still hold after the
normalization step that rescales the curve when score ≥ 85 with peak < 95
(reclamped to 100) or score ≥ 70 with peak < 80 (rescaled toward 85). -/
theorem fishingDay_bounds (p : ℝ) (sr ss : ℤ) (majors minors : List ℤ) :
    0 ≤ OfflineSolunar.dayScore p sr ss majors minors ∧
    OfflineSolunar.dayScore p sr ss majors minors ≤ 100 ∧
    (OfflineSolunar.dayHourlyActivity p sr ss majors minors).length = 24 ∧
    ∀ v ∈ OfflineSolunar.dayHourlyActivity p sr ss majors minors,
      10 ≤ v ∧ v ≤ 100 := by
  obtain ⟨h50, h100⟩ := offline_dayScore_bounds p sr ss majors minors
  refine ⟨by linarith, h100, ?_, ?_⟩
  · unfold OfflineSolunar.dayHourlyActivity
    rw [normalizeHourly_length]
    unfold OfflineSolunar.hourlyActivityRaw
    simp
  · exact normalizeHourly_bounds _ _ (hourlyActivityRaw_bounds sr ss majors minors)

end AnglersPulse
